import Mathlib

/-!
# csv-mlready-api: the profiling and scoring engine of `api/analyze.js`

A shallow embedding of the analysis code of `src/api/analyze.js`:

* the built-in accumulator (`analyzeCSV`, its `headers` and `data` handlers),
* the built-in scorer (`calculateMLReadiness`),
* the adapter for the external engine's report (`convertDataprofToApiResponse`),
* the outcome of the external engine (`analyzeWithDataprof`) and the analysis
  step of the request handler (`module.exports`).

Modelling conventions.

* A JavaScript object used as a table is the list of its own enumerable
  properties in enumeration order (`JsObject`).
* Row counts, null counts and set sizes are natural numbers; the running
  score is an integer (it can fall below zero before it is clamped).
* Percentages are exact rationals.  The source computes them in binary
  floating point, `(a / b) * 100`, and compares them with 50, 20 and 90.  For
  counts below `2 ^ 32` (the bound on a JavaScript array length) the rounded
  quotient and product fall on the same side of each threshold as the exact
  value, and land on the threshold exactly when the exact value does, so the
  comparisons agree with the rational ones.  The same holds for
  `numericColumns < totalColumns * 0.3`.
* Built-ins of the host whose results are implementation-defined or depend
  on floating-point digits (`Date.parse`, `Number.prototype.toFixed`,
  `String.prototype.toLowerCase`) are fields of `JsBuiltins`; every theorem
  holds for all of them.
-/

set_option linter.unnecessarySeqFocus false

namespace CsvMlReady

/-! ## JavaScript objects as ordered property tables -/

/-- The own enumerable string-keyed properties of a JavaScript object, in the
order `Object.keys` / `Object.values` enumerate them. -/
abbrev JsObject (α : Type) := List (String × α)

/-- Numeric value of a list of decimal digits. -/
def digitsValue (cs : List Char) : Nat :=
  cs.foldl (fun acc c => acc * 10 + (c.toNat - 48)) 0

/-- Array index in the sense of ECMAScript: the canonical decimal string of an
integer between `0` and `2 ^ 32 - 2`. -/
def isArrayIndex (k : String) : Bool :=
  match k.data with
  | [] => false
  | c :: cs =>
    (c :: cs).all Char.isDigit && (c != '0' || cs.isEmpty) && decide (digitsValue (c :: cs) < 4294967295)

/-- Numeric value of a key that is an array index. -/
def indexValue (k : String) : Nat := digitsValue k.data

namespace JsObject

/-- `Object.keys(o)`. -/
def keys {α : Type} (o : JsObject α) : List String := o.map Prod.fst

/-- `Object.values(o)`. -/
def values {α : Type} (o : JsObject α) : List α := o.map Prod.snd

/-- Own-property lookup `o[k]`. -/
def get {α : Type} (o : JsObject α) (k : String) : Option α :=
  match o with
  | [] => none
  | (k1, v) :: rest => if k1 = k then some v else get rest k

/-- Does `o` own a property `k`. -/
def has {α : Type} (o : JsObject α) (k : String) : Bool := o.any (fun e => e.1 == k)

/-- Position of a newly created property: array indices come first, in
ascending numeric order; every other key goes after all existing keys. -/
def insertNew {α : Type} (o : JsObject α) (k : String) (v : α) : JsObject α :=
  if isArrayIndex k then
    o.takeWhile (fun e => isArrayIndex e.1 && decide (indexValue e.1 < indexValue k))
      ++ (k, v) :: o.dropWhile (fun e => isArrayIndex e.1 && decide (indexValue e.1 < indexValue k))
  else o ++ [(k, v)]

/-- Assignment `o[k] = v`.  An existing property keeps its position; a new
one is placed by `insertNew`.  Assigning to `__proto__` reaches the accessor
inherited from `Object.prototype` and creates no own property. -/
def set {α : Type} (o : JsObject α) (k : String) (v : α) : JsObject α :=
  if k = "__proto__" then o
  else if o.has k then o.map (fun e => if e.1 = k then (k, v) else e)
  else o.insertNew k v

end JsObject

/-! ## Host built-ins -/

/-- The host built-ins the analysis relies on.

* `dateParse s` is the time value of `new Date(s)`, `none` when it is `NaN`
  (an invalid date).
* `percentText x` is the text `p.toFixed(1)` where `p` is the floating-point
  number the source computes, as `(a / b) * 100`, for the exact percentage
  `x`.
* `toFixed1 x` is `x.toFixed(1)` for a number `x` read from a report.
* `toLowerCase s` is `s.toLowerCase()`. -/
structure JsBuiltins where
  dateParse : String → Option Int
  percentText : ℚ → String
  toFixed1 : ℚ → String
  toLowerCase : String → String

/-! ## Data model of the built-in path -/

/-- The values `col.type` takes in `analyzeCSV`. -/
inductive ColType where
  | unknown
  | integer
  | float
  | date
  | string
deriving DecidableEq, Repr

/-- The string the source stores for a column type. -/
def ColType.name : ColType → String
  | .unknown => "unknown"
  | .integer => "integer"
  | .float => "float"
  | .date => "date"
  | .string => "string"

/-- One entry of `columns` in `analyzeCSV`: the running statistics of a
column.  `uniqueValues` is the `Set` in insertion order, without repeats. -/
structure ColumnStat where
  name : String
  type : ColType
  nullCount : Nat
  uniqueValues : List String
  samples : List String
deriving DecidableEq, Repr

/-- One element of `columns` in the report of `calculateMLReadiness`. -/
structure ColumnReport where
  name : String
  type : String
  nullPercentage : String
  uniqueValues : Nat
  samples : List String
deriving DecidableEq, Repr

/-- The fields `calculateMLReadiness` adds to its report when there is data. -/
structure Detail where
  totalRows : Nat
  totalColumns : Nat
  columnTypes : JsObject Nat
  columns : List ColumnReport
deriving DecidableEq, Repr

/-- The object `calculateMLReadiness` returns.  The early return for missing
data has only `score`, `issues` and `recommendations`; `detail` is `none`
there. -/
structure Analysis where
  score : Int
  issues : List String
  recommendations : List String
  detail : Option Detail
deriving DecidableEq, Repr

/-- A parsed row as `csv-parser` emits it: an object from header name to cell
text. -/
abbrev Row := JsObject String

/-! ## The scorer `calculateMLReadiness` -/

/-- The mutable locals `score`, `issues`, `recommendations`. -/
structure Tally where
  score : Int
  issues : List String
  recommendations : List String
deriving DecidableEq, Repr

/-- `(col.nullCount / totalRows) * 100`. -/
def nullPercentage (col : ColumnStat) (totalRows : Nat) : ℚ :=
  (col.nullCount : ℚ) / (totalRows : ℚ) * 100

/-- `(col.uniqueValues.size / totalRows) * 100`. -/
def uniquePercentage (col : ColumnStat) (totalRows : Nat) : ℚ :=
  (col.uniqueValues.length : ℚ) / (totalRows : ℚ) * 100

/-- The data-volume check before the column loop. -/
def volumeRule (totalRows : Nat) (t : Tally) : Tally :=
  if totalRows < 100 then
    { score := t.score - 20
      issues := t.issues ++ ["Small dataset: only " ++ toString totalRows ++ " rows"]
      recommendations := t.recommendations ++
        ["Consider collecting more data (recommended: 1000+ rows)"] }
  else t

/-- The `High null percentage` block of the column loop. -/
def missingRule (js : JsBuiltins) (totalRows : Nat) (col : ColumnStat) (t : Tally) : Tally :=
  if nullPercentage col totalRows > 50 then
    { score := t.score - 15
      issues := t.issues ++ ["High missing values in '" ++ col.name ++ "': " ++
        js.percentText (nullPercentage col totalRows) ++ "%"]
      recommendations := t.recommendations ++
        ["Consider imputing or removing column '" ++ col.name ++ "'"] }
  else if nullPercentage col totalRows > 20 then
    { score := t.score - 5
      issues := t.issues ++ ["Moderate missing values in '" ++ col.name ++ "': " ++
        js.percentText (nullPercentage col totalRows) ++ "%"]
      recommendations := t.recommendations }
  else t

/-- The `High cardinality for categorical data` block of the column loop. -/
def cardinalityRule (js : JsBuiltins) (totalRows : Nat) (col : ColumnStat) (t : Tally) : Tally :=
  if col.type = ColType.string ∧ uniquePercentage col totalRows > 90 then
    { score := t.score - 10
      issues := t.issues ++ ["High cardinality in '" ++ col.name ++ "': " ++
        js.percentText (uniquePercentage col totalRows) ++ "% unique values"]
      recommendations := t.recommendations ++
        ["Consider feature engineering for '" ++ col.name ++ "' or use embeddings"] }
  else t

/-- The `Single unique value (constant column)` block of the column loop. -/
def constantRule (col : ColumnStat) (t : Tally) : Tally :=
  if col.uniqueValues.length = 1 then
    { score := t.score - 20
      issues := t.issues ++ ["Constant column '" ++ col.name ++ "' provides no information"]
      recommendations := t.recommendations ++ ["Remove constant column '" ++ col.name ++ "'"] }
  else t

/-- The body of `Object.values(columns).forEach(col => ...)`. -/
def analyzeColumn (js : JsBuiltins) (totalRows : Nat) (t : Tally) (col : ColumnStat) : Tally :=
  constantRule col (cardinalityRule js totalRows col (missingRule js totalRows col t))

/-- Number of columns whose type is `integer` or `float`. -/
def numericColumns (cols : List ColumnStat) : Nat :=
  (cols.filter (fun col => col.type = ColType.integer ∨ col.type = ColType.float)).length

/-- Number of columns whose type is `date`. -/
def dateColumns (cols : List ColumnStat) : Nat :=
  (cols.filter (fun col => col.type = ColType.date)).length

/-- The two feature-engineering recommendations after the column loop. -/
def featureRecommendations (cols : List ColumnStat) (totalColumns : Nat)
    (recommendations : List String) : List String :=
  let r1 :=
    if (numericColumns cols : ℚ) < (totalColumns : ℚ) * (3 / 10) then
      recommendations ++ ["Consider creating numeric features from categorical data"]
    else recommendations
  if dateColumns cols > 0 then
    r1 ++ ["Extract time-based features from date columns (year, month, day, etc.)"]
  else r1

/-- The `reduce` that counts columns per type name. -/
def countTypes (cols : List ColumnStat) : JsObject Nat :=
  cols.foldl (fun acc col => acc.set col.type.name ((acc.get col.type.name).getD 0 + 1)) []

/-- The element of `columns` built for one column. -/
def columnReport (js : JsBuiltins) (totalRows : Nat) (col : ColumnStat) : ColumnReport :=
  { name := col.name
    type := col.type.name
    nullPercentage := js.percentText (nullPercentage col totalRows)
    uniqueValues := col.uniqueValues.length
    samples := col.samples.take 3 }

/-- `Math.max(0, Math.min(100, Math.round(score)))` for an integer score. -/
def clampScore (score : Int) : Int := max 0 (min 100 score)

/-- The function `calculateMLReadiness(rows, columns)`. -/
def calculateMLReadiness (js : JsBuiltins) (rows : List Row) (columns : JsObject ColumnStat) :
    Analysis :=
  let totalRows := rows.length
  let totalColumns := columns.keys.length
  if totalRows = 0 ∨ totalColumns = 0 then
    { score := 0
      issues := ["No data found"]
      recommendations := ["Upload a valid CSV file with data"]
      detail := none }
  else
    let t0 : Tally := { score := 100, issues := [], recommendations := [] }
    let t1 := volumeRule totalRows t0
    let t2 := columns.values.foldl (analyzeColumn js totalRows) t1
    let recommendations := featureRecommendations columns.values totalColumns t2.recommendations
    { score := clampScore t2.score
      issues := t2.issues.take 5
      recommendations := recommendations.take 5
      detail := some
        { totalRows := totalRows
          totalColumns := totalColumns
          columnTypes := countTypes columns.values
          columns := columns.values.map (columnReport js totalRows) } }

/-! ## The built-in accumulator `analyzeCSV` -/

/-- White space and line terminators of ECMAScript: what `trim` strips and
what `Number` and `parseFloat` skip. -/
def isJsWhiteSpace (c : Char) : Bool :=
  let n := c.toNat
  n = 0x09 || n = 0x0A || n = 0x0B || n = 0x0C || n = 0x0D || n = 0x20 || n = 0xA0
    || n = 0x1680 || (0x2000 ≤ n && n ≤ 0x200A) || n = 0x2028 || n = 0x2029
    || n = 0x202F || n = 0x205F || n = 0x3000 || n = 0xFEFF

/-- The test `!value || value.trim() === ''` on a cell text. -/
def isBlank (value : String) : Bool := value.data.all isJsWhiteSpace

/-- A non-empty run of decimal digits, optionally signed: the tail of an
exponent part. -/
def isSignedDigits (cs : List Char) : Bool :=
  match cs with
  | '+' :: ds => !ds.isEmpty && ds.all Char.isDigit
  | '-' :: ds => !ds.isEmpty && ds.all Char.isDigit
  | ds => !ds.isEmpty && ds.all Char.isDigit

/-- Nothing, or an exponent part `e` / `E` followed by signed digits. -/
def isOptExponent (cs : List Char) : Bool :=
  match cs with
  | [] => true
  | c :: rest => (c = 'e' || c = 'E') && isSignedDigits rest

/-- The grammar `StrUnsignedDecimalLiteral`: `Infinity`, or digits with an
optional fraction and exponent, with at least one digit before the exponent. -/
def isUnsignedDecimal (cs : List Char) : Bool :=
  if cs = "Infinity".data then true
  else
    let intPart := cs.takeWhile Char.isDigit
    match cs.dropWhile Char.isDigit with
    | [] => !intPart.isEmpty
    | '.' :: rest =>
      (!intPart.isEmpty || !(rest.takeWhile Char.isDigit).isEmpty)
        && isOptExponent (rest.dropWhile Char.isDigit)
    | rest => !intPart.isEmpty && isOptExponent rest

/-- The grammar `StrDecimalLiteral`: an optional sign and an unsigned decimal. -/
def isDecimalLiteral (cs : List Char) : Bool :=
  match cs with
  | '+' :: rest => isUnsignedDecimal rest
  | '-' :: rest => isUnsignedDecimal rest
  | rest => isUnsignedDecimal rest

/-- Hexadecimal digit. -/
def isHexDigit (c : Char) : Bool :=
  c.isDigit || ('a' ≤ c && c ≤ 'f') || ('A' ≤ c && c ≤ 'F')

/-- The grammar `NonDecimalIntegerLiteral`: `0b`, `0o` or `0x` and digits of
that base. -/
def isNonDecimalLiteral (cs : List Char) : Bool :=
  match cs with
  | '0' :: b :: ds =>
    !ds.isEmpty &&
      (((b = 'b' || b = 'B') && ds.all (fun c => c = '0' || c = '1'))
        || ((b = 'o' || b = 'O') && ds.all (fun c => '0' ≤ c && c ≤ '7'))
        || ((b = 'x' || b = 'X') && ds.all isHexDigit))
  | _ => false

/-- Text with the white space at both ends removed. -/
def trimChars (cs : List Char) : List Char :=
  ((cs.dropWhile isJsWhiteSpace).reverse.dropWhile isJsWhiteSpace).reverse

/-- The test `!isNaN(value)` on a string: `Number(value)` is a number when the
trimmed text is empty or matches the grammar of a numeric literal. -/
def numberIsNumeric (value : String) : Bool :=
  let cs := trimChars value.data
  cs.isEmpty || isDecimalLiteral cs || isNonDecimalLiteral cs

/-- The test `!isNaN(parseFloat(value))`: after leading white space and an
optional sign the text starts with `Infinity`, a digit, or a point and a
digit. -/
def parseFloatIsNumeric (value : String) : Bool :=
  let cs := value.data.dropWhile isJsWhiteSpace
  let body := match cs with
    | '+' :: rest => rest
    | '-' :: rest => rest
    | rest => rest
  ("Infinity".data).isPrefixOf body ||
    (match body with
      | '.' :: d :: _ => d.isDigit
      | d :: _ => d.isDigit
      | [] => false)

/-- The function `isValidDate(dateString)`. -/
def isValidDate (js : JsBuiltins) (dateString : String) : Bool :=
  (js.dateParse dateString).isSome

/-- The `Basic type inference` block: the type given to a column by a
non-blank value. -/
def inferType (js : JsBuiltins) (value : String) : ColType :=
  if numberIsNumeric value && parseFloatIsNumeric value then
    if value.data.contains '.' then ColType.float else ColType.integer
  else if isValidDate js value then ColType.date
  else ColType.string

/-- The entry the `headers` handler creates for a header. -/
def freshColumn (header : String) : ColumnStat :=
  { name := header, type := ColType.unknown, nullCount := 0, uniqueValues := [], samples := [] }

/-- The `headers` handler: `headers.forEach(header => columns[header] = ...)`. -/
def onHeaders (headers : List String) (columns : JsObject ColumnStat) : JsObject ColumnStat :=
  headers.foldl (fun cols header => cols.set header (freshColumn header)) columns

/-- `Set.prototype.add` on strings. -/
def setAdd (s : List String) (value : String) : List String :=
  if value ∈ s then s else s ++ [value]

/-- What the `data` handler does to the column `col` for one cell `value`. -/
def observe (js : JsBuiltins) (col : ColumnStat) (value : String) : ColumnStat :=
  if isBlank value then
    { col with nullCount := col.nullCount + 1 }
  else
    { col with
      uniqueValues := setAdd col.uniqueValues value
      samples := if col.samples.length < 10 then col.samples ++ [value] else col.samples
      type := if col.type = ColType.unknown then inferType js value else col.type }

/-- The body of `Object.keys(row).forEach(key => ...)` for one key: the
column `columns[key]`, when there is one, observes the cell; other keys are
skipped. -/
def onCell (js : JsBuiltins) (columns : JsObject ColumnStat) (cell : String × String) :
    JsObject ColumnStat :=
  columns.map (fun e => if e.1 = cell.1 then (e.1, observe js e.2 cell.2) else e)

/-- The `data` handler on the column table. -/
def onData (js : JsBuiltins) (columns : JsObject ColumnStat) (row : Row) : JsObject ColumnStat :=
  row.foldl (onCell js) columns

/-- The column table when the stream ends. -/
def accumulate (js : JsBuiltins) (headers : List String) (rows : List Row) : JsObject ColumnStat :=
  rows.foldl (onData js) (onHeaders headers [])

/-- The function `analyzeCSV` on the header and the rows `csv-parser`
emits: every row is pushed on `rows` and folded into `columns`, and the `end`
handler calls `calculateMLReadiness(rows, columns)`. -/
def analyzeCSV (js : JsBuiltins) (headers : List String) (rows : List Row) : Analysis :=
  calculateMLReadiness js rows (accumulate js headers rows)

/-! ## The adapter `convertDataprofToApiResponse` -/

/-- One element of `quality.issues` in the report of the external engine. -/
structure QualityIssue where
  severity : String
  description : String
  column : String
deriving DecidableEq, Repr

/-- One element of `summary.ml_readiness.recommendations`. -/
structure MlRecommendation where
  category : String
  description : String
deriving DecidableEq, Repr

/-- One element of `summary.ml_readiness.feature_analysis`. -/
structure FeatureInfo where
  column_name : String
  ml_suitability : Option ℚ
  feature_type : Option String
  encoding_suggestions : Option (List String)
deriving DecidableEq, Repr

/-- The object `summary.ml_readiness`. -/
structure MlReadiness where
  score : Option ℚ
  level : Option String
  recommendations : Option (List MlRecommendation)
  feature_analysis : Option (List FeatureInfo)
deriving DecidableEq, Repr

/-- The object `summary`. -/
structure Summary where
  ml_readiness : Option MlReadiness
deriving DecidableEq, Repr

/-- The object `quality`. -/
structure Quality where
  issues : Option (List QualityIssue)
  quality_score : Option ℚ
deriving DecidableEq, Repr

/-- The object `metadata`. -/
structure Metadata where
  total_rows : Option ℚ
  total_columns : Option ℚ
deriving DecidableEq, Repr

/-- One element of `columns` in the report of the external engine. -/
structure DataprofColumn where
  name : String
  data_type : Option String
  null_percentage : Option ℚ
  total_count : ℚ
  null_count : ℚ
deriving DecidableEq, Repr

/-- The parsed report of the external engine.  A field that may be missing
is an `Option`; numbers are rationals. -/
structure DataprofResult where
  summary : Option Summary
  quality : Option Quality
  metadata : Option Metadata
  columns : Option (List DataprofColumn)
deriving DecidableEq, Repr

/-- One element of `columns` in the response of the adapter. -/
structure AdaptedColumn where
  name : String
  type : String
  nullPercentage : String
  uniqueValues : ℚ
  samples : List String
  mlSuitability : ℚ
  featureType : String
  encodingSuggestions : List String
deriving DecidableEq, Repr

/-- The object `convertDataprofToApiResponse` returns. -/
structure ApiResponse where
  score : Int
  totalRows : ℚ
  totalColumns : ℚ
  columnTypes : JsObject Nat
  issues : List String
  recommendations : List String
  columns : List AdaptedColumn
  dataQualityScore : ℚ
  mlReadinessLevel : String
  processingEngine : String
deriving DecidableEq, Repr

/-- `Math.round`: the nearest integer, a tie going up. -/
def mathRound (x : ℚ) : Int := ⌊x + 1 / 2⌋

/-- `x || d` for an optional number: a missing number and `0` give `d`. -/
def numberOr (x : Option ℚ) (d : ℚ) : ℚ :=
  match x with
  | some v => if v = 0 then d else v
  | none => d

/-- `s || d` for an optional string: a missing string and `''` give `d`. -/
def stringOr (s : Option String) (d : String) : String :=
  match s with
  | some v => if v = "" then d else v
  | none => d

/-- `dataprofResult.summary?.ml_readiness`. -/
def DataprofResult.mlReadiness (r : DataprofResult) : Option MlReadiness :=
  r.summary.bind (fun s => s.ml_readiness)

/-- `col.data_type?.toLowerCase() || 'unknown'`. -/
def adaptedType (js : JsBuiltins) (col : DataprofColumn) : String :=
  stringOr (col.data_type.map js.toLowerCase) "unknown"

/-- The issues collected from `quality.issues`, before the cap of five. -/
def adaptedIssues (r : DataprofResult) : List String :=
  match r.quality.bind (fun q => q.issues) with
  | some issues =>
    (issues.filter (fun issue => issue.severity = "critical" ∨ issue.severity = "warning")).map
      (fun issue => issue.description ++ " in column '" ++ issue.column ++ "'")
  | none => []

/-- The recommendations collected from `ml_readiness.recommendations`, before
the cap of five. -/
def adaptedRecommendations (r : DataprofResult) : List String :=
  match r.mlReadiness.bind (fun m => m.recommendations) with
  | some recs => recs.map (fun rec => rec.category ++ ": " ++ rec.description)
  | none => []

/-- The element of `columnAnalysis` built for one column. -/
def adaptColumn (js : JsBuiltins) (r : DataprofResult) (col : DataprofColumn) : AdaptedColumn :=
  let featureInfo : Option FeatureInfo :=
    (r.mlReadiness.bind (fun m => m.feature_analysis)).bind
      (fun fs => fs.find? (fun f => f.column_name = col.name))
  { name := col.name
    type := adaptedType js col
    nullPercentage := stringOr (col.null_percentage.map js.toFixed1) "0.0"
    uniqueValues := col.total_count - col.null_count
    samples := []
    mlSuitability := numberOr (featureInfo.bind (fun f => f.ml_suitability)) 0
    featureType := stringOr (featureInfo.bind (fun f => f.feature_type)) "unknown"
    encodingSuggestions := (featureInfo.bind (fun f => f.encoding_suggestions)).getD [] }

/-- The `reduce` that counts the columns of the report per type name.  The
lookup `acc[type]` is modelled as an own-property lookup, which is what the
source does for every type name that `Object.prototype` does not define (see
`isObjectPrototypeKey`). -/
def adaptedTypeCounts (js : JsBuiltins) (cols : List DataprofColumn) : JsObject Nat :=
  cols.foldl
    (fun acc col => acc.set (adaptedType js col) ((acc.get (adaptedType js col)).getD 0 + 1)) []

/-- The function `convertDataprofToApiResponse(dataprofResult, filename)`. -/
def convertDataprofToApiResponse (js : JsBuiltins) (r : DataprofResult) (_filename : String) :
    ApiResponse :=
  let columns := r.columns.getD []
  { score := mathRound (numberOr (r.mlReadiness.bind (fun m => m.score)) 0)
    totalRows :=
      numberOr (r.metadata.bind (fun m => m.total_rows))
        (numberOr (columns.head?.map (fun c => c.total_count)) 0)
    totalColumns := numberOr (r.metadata.bind (fun m => m.total_columns)) columns.length
    columnTypes := adaptedTypeCounts js columns
    issues := (adaptedIssues r).take 5
    recommendations := (adaptedRecommendations r).take 5
    columns := columns.map (adaptColumn js r)
    dataQualityScore := numberOr (r.quality.bind (fun q => q.quality_score)) 0
    mlReadinessLevel := stringOr (r.mlReadiness.bind (fun m => m.level)) "Unknown"
    processingEngine := "dataprof-v0.4.6" }

/-! ## Column reports as objects -/

/-- A property value of a column report: a number, a string, or an array of
strings. -/
inductive JsValue where
  | number (x : ℚ)
  | text (s : String)
  | texts (l : List String)
deriving DecidableEq, Repr

/-- The object literal `calculateMLReadiness` builds for one column: its
properties in source order. -/
def ColumnReport.toObject (r : ColumnReport) : JsObject JsValue :=
  [("name", JsValue.text r.name),
   ("type", JsValue.text r.type),
   ("nullPercentage", JsValue.text r.nullPercentage),
   ("uniqueValues", JsValue.number r.uniqueValues),
   ("samples", JsValue.texts r.samples)]

/-- The object literal `convertDataprofToApiResponse` builds for one column:
its properties in source order. -/
def AdaptedColumn.toObject (r : AdaptedColumn) : JsObject JsValue :=
  [("name", JsValue.text r.name),
   ("type", JsValue.text r.type),
   ("nullPercentage", JsValue.text r.nullPercentage),
   ("uniqueValues", JsValue.number r.uniqueValues),
   ("samples", JsValue.texts r.samples),
   ("mlSuitability", JsValue.number r.mlSuitability),
   ("featureType", JsValue.text r.featureType),
   ("encodingSuggestions", JsValue.texts r.encodingSuggestions)]

/-! ## The two engines and the request handler -/

/-- How the child process started by `analyzeWithDataprof` ends.  Either it
closes, with an exit code (`none` when a signal killed it, as the timeout
does), its standard output and its standard error; or starting or preparing
it raises an error with a message. -/
inductive EngineRun where
  | closed (code : Option Int) (stdout : String) (stderr : String)
  | failed (message : String)
deriving DecidableEq, Repr

/-- The text of `${code}`. -/
def renderCode : Option Int → String
  | some code => toString code
  | none => "null"

/-- The promise of `analyzeWithDataprof`: the adapted report, or the message
of the error it rejects with.  `parseReport stdout` is `JSON.parse(stdout)`
read as a report, `none` when parsing or converting throws. -/
def analyzeWithDataprof (js : JsBuiltins) (parseReport : String → Option DataprofResult)
    (run : EngineRun) (filename : String) : Except String ApiResponse :=
  match run with
  | EngineRun.closed code stdout stderr =>
    if code = some 0 ∧ stdout ≠ "" then
      match parseReport stdout with
      | some dataprofResult => Except.ok (convertDataprofToApiResponse js dataprofResult filename)
      | none => Except.error "Failed to parse analysis results"
    else
      Except.error ("Analysis failed with code " ++ renderCode code ++ ": " ++
        (if stderr = "" then "Unknown error" else stderr))
  | EngineRun.failed message => Except.error message

/-- What `csv-parser` makes of the upload: the header and the rows followed by
`end`, or an `error` with a message. -/
abbrev CsvStream := Except String (List String × List Row)

/-- The promise of `analyzeCSV`: the analysis when the stream ends, or the
message of the stream error it rejects with. -/
def analyzeCSVPromise (js : JsBuiltins) (stream : CsvStream) : Except String Analysis :=
  match stream with
  | Except.ok (headers, rows) => Except.ok (analyzeCSV js headers rows)
  | Except.error message => Except.error message

/-- The `analysis` of a successful response: the adapter's response, or the
built-in analysis with the `processingEngine` the handler adds to it. -/
inductive EngineAnalysis where
  | dataprof (analysis : ApiResponse)
  | builtin (analysis : Analysis) (processingEngine : String)
deriving DecidableEq, Repr

/-- The response of the analysis step of the handler: status 200 with the
file name, the analysis and `meta.engineUsed`, or status 500 with `error` and
`details`. -/
inductive HandlerResponse where
  | ok (filename : String) (analysis : EngineAnalysis) (engineUsed : String)
  | serverError (error : String) (details : String)
deriving DecidableEq, Repr

/-- The inner `try` of the request handler (`module.exports`), on the outcomes
of the two promises: the external engine first, the built-in one when the
external one rejects, status 500 when that one rejects too. -/
def respond (external : Except String ApiResponse) (fallback : Except String Analysis)
    (filename : String) : HandlerResponse :=
  match external with
  | Except.ok analysis => HandlerResponse.ok filename (EngineAnalysis.dataprof analysis)
      "dataprof-v0.4.6"
  | Except.error _ =>
    match fallback with
    | Except.ok analysis =>
      HandlerResponse.ok filename (EngineAnalysis.builtin analysis "fallback-js-v1") "fallback-js"
    | Except.error message => HandlerResponse.serverError "Failed to analyze CSV file" message

/-- The analysis step of the handler for one upload. -/
def handleUpload (js : JsBuiltins) (parseReport : String → Option DataprofResult)
    (run : EngineRun) (stream : CsvStream) (filename : String) : HandlerResponse :=
  respond (analyzeWithDataprof js parseReport run filename) (analyzeCSVPromise js stream) filename

/-! ## The rule table, as the specification words it -/

/-- Penalty of one column under the rule table: 15 or 5 for missing values,
10 for a high-cardinality string column, 20 for a constant column. -/
def columnPenalty (totalRows : Nat) (col : ColumnStat) : Nat :=
  (if (col.nullCount : ℚ) * 100 / (totalRows : ℚ) > 50 then 15
    else if (col.nullCount : ℚ) * 100 / (totalRows : ℚ) > 20 then 5 else 0)
  + (if col.type = ColType.string ∧ (col.uniqueValues.length : ℚ) * 100 / (totalRows : ℚ) > 90
      then 10 else 0)
  + (if col.uniqueValues.length = 1 then 20 else 0)

/-- The sum `P` of all penalties of the rule table. -/
def totalPenalty (totalRows : Nat) (cols : List ColumnStat) : Nat :=
  (if totalRows < 100 then 20 else 0) + (cols.map (columnPenalty totalRows)).sum

/-- The small-dataset issue, when the rule fires. -/
def volumeIssues (totalRows : Nat) : List String :=
  if totalRows < 100 then ["Small dataset: only " ++ toString totalRows ++ " rows"] else []

/-- The missing-values issue of a column, when one of the two rules fires. -/
def missingIssues (js : JsBuiltins) (totalRows : Nat) (col : ColumnStat) : List String :=
  if nullPercentage col totalRows > 50 then
    ["High missing values in '" ++ col.name ++ "': " ++
      js.percentText (nullPercentage col totalRows) ++ "%"]
  else if nullPercentage col totalRows > 20 then
    ["Moderate missing values in '" ++ col.name ++ "': " ++
      js.percentText (nullPercentage col totalRows) ++ "%"]
  else []

/-- The high-cardinality issue of a column, when the rule fires. -/
def cardinalityIssues (js : JsBuiltins) (totalRows : Nat) (col : ColumnStat) : List String :=
  if col.type = ColType.string ∧ uniquePercentage col totalRows > 90 then
    ["High cardinality in '" ++ col.name ++ "': " ++
      js.percentText (uniquePercentage col totalRows) ++ "% unique values"]
  else []

/-- The constant-column issue of a column, when the rule fires. -/
def constantIssues (col : ColumnStat) : List String :=
  if col.uniqueValues.length = 1 then
    ["Constant column '" ++ col.name ++ "' provides no information"]
  else []

/-- The issues of one column: missing values, cardinality, constant. -/
def columnIssues (js : JsBuiltins) (totalRows : Nat) (col : ColumnStat) : List String :=
  missingIssues js totalRows col ++ cardinalityIssues js totalRows col ++ constantIssues col

/-- All issues in evaluation order, before the cap of five. -/
def issueSequence (js : JsBuiltins) (totalRows : Nat) (cols : List ColumnStat) : List String :=
  volumeIssues totalRows ++ (cols.map (columnIssues js totalRows)).flatten

/-- The recommendations of one column, in the order of its rules. -/
def columnRecommendations (totalRows : Nat) (col : ColumnStat) : List String :=
  (if nullPercentage col totalRows > 50 then
      ["Consider imputing or removing column '" ++ col.name ++ "'"] else [])
  ++ (if col.type = ColType.string ∧ uniquePercentage col totalRows > 90 then
      ["Consider feature engineering for '" ++ col.name ++ "' or use embeddings"] else [])
  ++ (if col.uniqueValues.length = 1 then
      ["Remove constant column '" ++ col.name ++ "'"] else [])

/-- All recommendations in evaluation order, before the cap of five: the
data-volume one, those of the columns, then the numeric-feature and
date-feature ones. -/
def recommendationSequence (totalRows : Nat) (cols : List ColumnStat) : List String :=
  (if totalRows < 100 then ["Consider collecting more data (recommended: 1000+ rows)"] else [])
  ++ (cols.map (columnRecommendations totalRows)).flatten
  ++ (if (numericColumns cols : ℚ) < (cols.length : ℚ) * (3 / 10) then
      ["Consider creating numeric features from categorical data"] else [])
  ++ (if dateColumns cols > 0 then
      ["Extract time-based features from date columns (year, month, day, etc.)"] else [])

/-! ## The accumulator seen from one column -/

/-- What one row does to the column stored under `key`: the cells enumerated
with that key are observed, the others are skipped. -/
def columnAfterRow (js : JsBuiltins) (key : String) (col : ColumnStat) (row : Row) : ColumnStat :=
  row.foldl (fun c cell => if key = cell.1 then observe js c cell.2 else c) col

/-- The cell texts the rows hold for the column `key`, in row order. -/
def cellValues (key : String) (rows : List Row) : List String :=
  rows.filterMap (fun row => row.get key)

/-! ## Words of the specification on counts, column types and findings -/

/-- The sum of the counts of a `columnTypes` object. -/
def countSum (o : JsObject Nat) : Nat := o.values.sum

/-- The first non-blank text of a sequence of cell texts. -/
def firstNonBlank (vs : List String) : Option String :=
  vs.find? (fun v => !isBlank v)

/-- The type a column ends with according to the specification: the
classification of its first non-blank value, `unknown` when there is none. -/
def stickyType (js : JsBuiltins) (vs : List String) : ColType :=
  match firstNonBlank vs with
  | some v => inferType js v
  | none => ColType.unknown

/-- The text `"<description> in column '<column>'"` of a quality finding. -/
def renderFinding (issue : QualityIssue) : String :=
  issue.description ++ " in column '" ++ issue.column ++ "'"

/-- The quality findings of a report, none when `quality` or its `issues` is
missing. -/
def qualityFindings (r : DataprofResult) : List QualityIssue :=
  match r.quality with
  | some q => q.issues.getD []
  | none => []

/-- The names of the properties every object inherits from
`Object.prototype`.  For such a name `acc[type]` in the `reduce` of
`columnTypes` reads the inherited value and not a count; the tables
`countTypes` and `adaptedTypeCounts` count the columns whose type name is none
of them. -/
def isObjectPrototypeKey (k : String) : Bool :=
  k ∈ ["__proto__", "constructor", "toString", "toLocaleString", "valueOf", "hasOwnProperty",
    "isPrototypeOf", "propertyIsEnumerable", "__defineGetter__", "__defineSetter__",
    "__lookupGetter__", "__lookupSetter__"]

/-! ## The parts of `parseFloatIsNumeric` -/

/-- The test of `parseFloatIsNumeric` on the text after the white space and
the sign: it starts with `Infinity`, a digit, or a point and a digit. -/
def startsNumber (body : List Char) : Bool :=
  ("Infinity".data).isPrefixOf body ||
    (match body with
      | '.' :: d :: _ => d.isDigit
      | d :: _ => d.isDigit
      | [] => false)

/-- The text after an optional sign, as `parseFloatIsNumeric` takes it. -/
def signStripped (cs : List Char) : List Char :=
  match cs with
  | '+' :: rest => rest
  | '-' :: rest => rest
  | rest => rest

/-! ## The order of the columns -/

/-- The header names that get a column, in header order: each name once, at
its first occurrence; `__proto__` gets none. -/
def columnNames (headers : List String) : List String :=
  (headers.filter (fun h => decide (h ≠ "__proto__"))).foldl setAdd []

/-- The columns of a table taken in header order. -/
def columnsInHeaderOrder (headers : List String) (table : JsObject ColumnStat) :
    List ColumnStat :=
  (columnNames headers).filterMap (fun h => table.get h)

/-- The keys of a table after a new key `k` is created: `insertNew` on the
keys alone. -/
def insertKey (ks : List String) (k : String) : List String :=
  if isArrayIndex k then
    ks.takeWhile (fun x => isArrayIndex x && decide (indexValue x < indexValue k))
      ++ k :: ks.dropWhile (fun x => isArrayIndex x && decide (indexValue x < indexValue k))
  else ks ++ [k]

/-- The keys of a table after the assignment `columns[header] = ...`: `set` on
the keys alone. -/
def stepKeys (ks : List String) (header : String) : List String :=
  if header = "__proto__" then ks
  else if header ∈ ks then ks
  else insertKey ks header

/-- The enumeration order of the keys `ks` of a table whose columns were
created for the names `names`: first the names that are array indices, in
ascending numeric order, then the other names in the order of `names`. -/
def EnumerationOrder (ks names : List String) : Prop :=
  ∃ indices : List String,
    ks = indices ++ names.filter (fun h => !isArrayIndex h)
      ∧ indices.Perm (names.filter isArrayIndex)
      ∧ indices.Pairwise (fun a b => indexValue a ≤ indexValue b)

/-- What the `data` handler does to the sample buffer for a non-blank cell. -/
def pushSample (samples : List String) (value : String) : List String :=
  if samples.length < 10 then samples ++ [value] else samples

/-! ## Concrete inputs -/

/-- Two rows of a file with the header `city,zip`: the city is always
`Rome`, the zip code is always blank. -/
def romeRows : List Row :=
  [[("city", "Rome"), ("zip", "")], [("city", "Rome"), ("zip", "")]]

/-- The column table of `romeRows`. -/
def romeColumns : JsObject ColumnStat :=
  [("city", { name := "city", type := ColType.string, nullCount := 0,
              uniqueValues := ["Rome"], samples := ["Rome", "Rome"] }),
   ("zip", { name := "zip", type := ColType.unknown, nullCount := 2,
             uniqueValues := [], samples := [] })]

/-- A constant integer column named `name`, without nulls. -/
def sevenColumn (name : String) : ColumnStat :=
  { name := name, type := ColType.integer, nullCount := 0, uniqueValues := ["7"],
    samples := ["7"] }

/-- A table of six constant columns `c1` .. `c6`. -/
def sixConstantColumns : JsObject ColumnStat :=
  ["c1", "c2", "c3", "c4", "c5", "c6"].map (fun k => (k, sevenColumn k))

/-- One row of a file with six columns, every cell `7`. -/
def sixConstantRows : List Row :=
  [["c1", "c2", "c3", "c4", "c5", "c6"].map (fun k => (k, "7"))]

/-- A report of the external engine with nothing but a score. -/
def scoreOnlyReport (score : ℚ) : DataprofResult :=
  { summary := some ⟨some ⟨some score, none, none, none⟩⟩
    quality := none
    metadata := none
    columns := none }

/-- The text made of `i + 1` letters `a`. -/
def lettersA (i : Nat) : String := String.mk (List.replicate (i + 1) 'a')

/-- The header of `fiftyRows`. -/
def fiftyHeaders : List String := ["id", "name", "qty"]

/-- Fifty rows of a file with the header `id,name,qty`: row `i` holds the id
`i`, the name made of `i + 1` letters `a`, and the quantity `i + 100`. -/
def fiftyRows : List Row :=
  (List.range 50).map
    (fun i => [("id", toString i), ("name", lettersA i), ("qty", toString (i + 100))])

/-- The header of `numericRows`. -/
def numericHeaders : List String := ["id", "qty", "price"]

/-- Fifty rows of a file with the header `id,qty,price`: row `i` holds the id
`i`, the quantity `i + 100` and the price `i.5`. -/
def numericRows : List Row :=
  (List.range 50).map
    (fun i => [("id", toString i), ("qty", toString (i + 100)), ("price", toString i ++ ".5")])

/-- A report of the external engine that describes the single column `city`
and whose metadata declares `declared` columns. -/
def declaredColumnsReport (declared : ℚ) : DataprofResult :=
  { summary := none
    quality := none
    metadata := some ⟨none, some declared⟩
    columns := some [{ name := "city", data_type := none, null_percentage := none,
                       total_count := 2, null_count := 0 }] }

/-- The header `b,0`: the second name is an array index. -/
def bZeroHeaders : List String := ["b", "0"]

/-- One row of a file with the header `b,0`, both cells `7`; the row object
enumerates its key `0` first. -/
def bZeroRows : List Row := [[("0", "7"), ("b", "7")]]

/-- The cell of row `i` in a column that is filled in the first 70 rows and
blank afterwards. -/
def partialCell (i : Nat) : String := if i < 70 then toString i else ""

/-- The header of `mixedRows`. -/
def mixedHeaders : List String := ["c1", "c2", "c3", "c4", "c5", "c6"]

/-- A hundred rows of a file with the header `c1,...,c6`: `c2` and `c6` always
hold `7`; `c1`, `c3`, `c4`, `c5` hold the row number in the first 70 rows and
are blank in the last 30. -/
def mixedRows : List Row :=
  (List.range 100).map
    (fun i => [("c1", partialCell i), ("c2", "7"), ("c3", partialCell i),
               ("c4", partialCell i), ("c5", partialCell i), ("c6", "7")])

/-- The statistics of a column of `mixedRows` with 30 blank cells and 70
distinct values. -/
def moderateColumn (name : String) : ColumnStat :=
  { name := name, type := ColType.integer, nullCount := 30,
    uniqueValues := (List.range 70).map toString, samples := (List.range 10).map toString }

/-- The statistics of a column of `mixedRows` that always holds `7`. -/
def constantColumn (name : String) : ColumnStat :=
  { name := name, type := ColType.integer, nullCount := 0, uniqueValues := ["7"],
    samples := List.replicate 10 "7" }

/-- The column table of `mixedRows`. -/
def mixedColumns : JsObject ColumnStat :=
  [("c1", moderateColumn "c1"), ("c2", constantColumn "c2"), ("c3", moderateColumn "c3"),
   ("c4", moderateColumn "c4"), ("c5", moderateColumn "c5"), ("c6", constantColumn "c6")]

/-! ## Lemmas on the scorer -/

theorem nullPercentage_eq (col : ColumnStat) (n : Nat) :
    nullPercentage col n = (col.nullCount : ℚ) * 100 / (n : ℚ) := by
  unfold nullPercentage
  ring

theorem uniquePercentage_eq (col : ColumnStat) (n : Nat) :
    uniquePercentage col n = (col.uniqueValues.length : ℚ) * 100 / (n : ℚ) := by
  unfold uniquePercentage
  ring

theorem analyzeColumn_score (js : JsBuiltins) (n : Nat) (t : Tally) (col : ColumnStat) :
    (analyzeColumn js n t col).score = t.score - (columnPenalty n col : Int) := by
  unfold analyzeColumn constantRule cardinalityRule missingRule columnPenalty
  rw [← nullPercentage_eq, ← uniquePercentage_eq]
  split_ifs <;> simp <;> omega

theorem analyzeColumn_issues (js : JsBuiltins) (n : Nat) (t : Tally) (col : ColumnStat) :
    (analyzeColumn js n t col).issues = t.issues ++ columnIssues js n col := by
  unfold analyzeColumn constantRule cardinalityRule missingRule columnIssues missingIssues
    cardinalityIssues constantIssues
  split_ifs <;> simp

theorem analyzeColumn_recommendations (js : JsBuiltins) (n : Nat) (t : Tally) (col : ColumnStat) :
    (analyzeColumn js n t col).recommendations = t.recommendations ++ columnRecommendations n col := by
  unfold analyzeColumn constantRule cardinalityRule missingRule columnRecommendations
  split_ifs <;> simp

theorem foldl_analyzeColumn_score (js : JsBuiltins) (n : Nat) (cols : List ColumnStat) (t : Tally) :
    (cols.foldl (analyzeColumn js n) t).score
      = t.score - ((cols.map (columnPenalty n)).sum : Nat) := by
  induction cols generalizing t with
  | nil => simp
  | cons c cs ih =>
    rw [List.foldl_cons, ih, analyzeColumn_score]
    simp only [List.map_cons, List.sum_cons]
    push_cast
    ring

theorem foldl_analyzeColumn_issues (js : JsBuiltins) (n : Nat) (cols : List ColumnStat) (t : Tally) :
    (cols.foldl (analyzeColumn js n) t).issues
      = t.issues ++ (cols.map (columnIssues js n)).flatten := by
  induction cols generalizing t with
  | nil => simp
  | cons c cs ih =>
    rw [List.foldl_cons, ih, analyzeColumn_issues]
    simp

theorem foldl_analyzeColumn_recommendations (js : JsBuiltins) (n : Nat) (cols : List ColumnStat)
    (t : Tally) :
    (cols.foldl (analyzeColumn js n) t).recommendations
      = t.recommendations ++ (cols.map (columnRecommendations n)).flatten := by
  induction cols generalizing t with
  | nil => simp
  | cons c cs ih =>
    rw [List.foldl_cons, ih, analyzeColumn_recommendations]
    simp

/-- Shape of the report when there is at least one row and one column. -/
theorem calculateMLReadiness_data (js : JsBuiltins) (rows : List Row) (columns : JsObject ColumnStat)
    (hr : rows ≠ []) (hc : columns ≠ []) :
    (calculateMLReadiness js rows columns).score
        = clampScore (100 - (totalPenalty rows.length columns.values : Int))
      ∧ (calculateMLReadiness js rows columns).issues
        = (issueSequence js rows.length columns.values).take 5
      ∧ (calculateMLReadiness js rows columns).recommendations
        = (recommendationSequence rows.length columns.values).take 5 := by
  have h1 : ¬ (rows.length = 0 ∨ columns.keys.length = 0) := by
    simp [JsObject.keys, hr, hc]
  have hlen : columns.keys.length = columns.values.length := by
    simp [JsObject.keys, JsObject.values]
  unfold calculateMLReadiness
  simp only [h1, if_false]
  refine ⟨?_, ?_, ?_⟩
  · rw [foldl_analyzeColumn_score]
    unfold volumeRule totalPenalty
    split_ifs <;> simp <;> congr 1 <;> ring
  · rw [foldl_analyzeColumn_issues]
    unfold volumeRule issueSequence volumeIssues
    split_ifs <;> simp
  · unfold featureRecommendations
    rw [foldl_analyzeColumn_recommendations, hlen]
    unfold volumeRule recommendationSequence
    split_ifs <;> simp

/-- Shape of the report when there is no row or no column. -/
theorem calculateMLReadiness_empty (js : JsBuiltins) (rows : List Row)
    (columns : JsObject ColumnStat) (h : rows = [] ∨ columns = []) :
    calculateMLReadiness js rows columns
      = { score := 0
          issues := ["No data found"]
          recommendations := ["Upload a valid CSV file with data"]
          detail := none } := by
  have h1 : rows.length = 0 ∨ columns.keys.length = 0 := by
    rcases h with h | h
    · exact Or.inl (by simp [h])
    · exact Or.inr (by simp [h, JsObject.keys])
  unfold calculateMLReadiness
  simp only [h1, if_true]

theorem clampScore_of_le (x : Int) (h : x ≤ 100) : clampScore x = max 0 x := by
  unfold clampScore
  rw [min_eq_right h]

theorem clampScore_range (x : Int) : 0 ≤ clampScore x ∧ clampScore x ≤ 100 := by
  unfold clampScore
  constructor
  · exact le_max_left _ _
  · exact max_le (by norm_num) (min_le_left _ _)

theorem mem_columnIssues_of_constant (js : JsBuiltins) (n : Nat) (col : ColumnStat)
    (h1 : col.uniqueValues.length = 1) :
    ("Constant column '" ++ col.name ++ "' provides no information") ∈ columnIssues js n col := by
  unfold columnIssues constantIssues
  simp [h1]

theorem mem_issueSequence_of_constant (js : JsBuiltins) (n : Nat) (cols : List ColumnStat)
    (col : ColumnStat) (hc : col ∈ cols) (h1 : col.uniqueValues.length = 1) :
    ("Constant column '" ++ col.name ++ "' provides no information") ∈ issueSequence js n cols := by
  unfold issueSequence
  refine List.mem_append_right _ ?_
  rw [List.mem_flatten]
  exact ⟨columnIssues js n col, List.mem_map_of_mem _ hc, mem_columnIssues_of_constant js n col h1⟩

theorem columnIssues_sevenColumn (js : JsBuiltins) (k : String) :
    columnIssues js 1 (sevenColumn k) = ["Constant column '" ++ k ++ "' provides no information"] := by
  have h : ¬ (ColType.integer = ColType.string) := by decide
  norm_num [columnIssues, missingIssues, cardinalityIssues, constantIssues, sevenColumn,
    nullPercentage, h]

/-! ## Lemmas on the accumulator -/

theorem onData_eq_map (js : JsBuiltins) (row : Row) (cols : JsObject ColumnStat) :
    onData js cols row = cols.map (fun e => (e.1, columnAfterRow js e.1 e.2 row)) := by
  induction row generalizing cols with
  | nil => simp [onData, columnAfterRow]
  | cons cell rest ih =>
    have h : onData js cols (cell :: rest) = onData js (onCell js cols cell) rest := rfl
    rw [h, ih, onCell, List.map_map]
    apply List.map_congr_left
    intro e _
    by_cases hk : e.1 = cell.1
    · simp [columnAfterRow, hk]
    · simp [columnAfterRow, hk]

theorem foldl_onData_eq_map (js : JsBuiltins) (rows : List Row) (cols : JsObject ColumnStat) :
    rows.foldl (onData js) cols
      = cols.map (fun e => (e.1, rows.foldl (columnAfterRow js e.1) e.2)) := by
  induction rows generalizing cols with
  | nil => simp
  | cons row rest ih =>
    rw [List.foldl_cons, ih, onData_eq_map, List.map_map]
    apply List.map_congr_left
    intro e _
    simp

theorem get_eq_none_of_not_mem_keys {α : Type} (o : JsObject α) (k : String)
    (h : k ∉ o.keys) : o.get k = none := by
  induction o with
  | nil => rfl
  | cons e rest ih =>
    obtain ⟨k1, v⟩ := e
    simp only [JsObject.keys, List.map_cons, List.mem_cons, not_or] at h
    have h1 : ¬ k1 = k := fun hh => h.1 hh.symm
    simp only [JsObject.get, h1, if_false]
    exact ih h.2

theorem columnAfterRow_skip (js : JsBuiltins) (k : String) (col : ColumnStat) (row : Row)
    (h : k ∉ row.keys) : columnAfterRow js k col row = col := by
  induction row generalizing col with
  | nil => rfl
  | cons e rest ih =>
    simp only [JsObject.keys, List.map_cons, List.mem_cons, not_or] at h
    have h2 : columnAfterRow js k col (e :: rest)
        = columnAfterRow js k (if k = e.1 then observe js col e.2 else col) rest := rfl
    rw [h2, if_neg h.1]
    exact ih col h.2

theorem columnAfterRow_of_nodup (js : JsBuiltins) (k : String) (col : ColumnStat) (row : Row)
    (h : row.keys.Nodup) :
    columnAfterRow js k col row
      = match row.get k with
        | some v => observe js col v
        | none => col := by
  induction row generalizing col with
  | nil => rfl
  | cons e rest ih =>
    obtain ⟨k1, v1⟩ := e
    simp only [JsObject.keys, List.map_cons, List.nodup_cons] at h
    have h2 : columnAfterRow js k col ((k1, v1) :: rest)
        = columnAfterRow js k (if k = k1 then observe js col v1 else col) rest := rfl
    rw [h2]
    by_cases hk : k = k1
    · subst hk
      rw [if_pos rfl, columnAfterRow_skip js k _ rest h.1]
      simp [JsObject.get]
    · have hk2 : ¬ k1 = k := fun hh => hk hh.symm
      rw [if_neg hk, ih col h.2]
      simp [JsObject.get, hk2]

theorem foldl_columnAfterRow (js : JsBuiltins) (k : String) (rows : List Row)
    (col : ColumnStat) (h : ∀ row ∈ rows, row.keys.Nodup) :
    rows.foldl (columnAfterRow js k) col = (cellValues k rows).foldl (observe js) col := by
  induction rows generalizing col with
  | nil => rfl
  | cons row rest ih =>
    have hrow := h row (List.mem_cons_self _ _)
    have hrest : ∀ r ∈ rest, r.keys.Nodup := fun r hr => h r (List.mem_cons_of_mem _ hr)
    rw [List.foldl_cons, ih _ hrest, columnAfterRow_of_nodup js k col row hrow]
    cases hg : row.get k with
    | none => simp [cellValues, hg]
    | some v => simp [cellValues, hg]

theorem mem_set {α : Type} (o : JsObject α) (k : String) (v : α) (e : String × α)
    (h : e ∈ o.set k v) : e ∈ o ∨ e = (k, v) := by
  unfold JsObject.set at h
  split_ifs at h with h1 h2
  · exact Or.inl h
  · rw [List.mem_map] at h
    obtain ⟨e0, he0, rfl⟩ := h
    split_ifs
    · exact Or.inr rfl
    · exact Or.inl he0
  · unfold JsObject.insertNew at h
    split_ifs at h
    · rw [List.mem_append, List.mem_cons] at h
      rcases h with h | h | h
      · exact Or.inl (List.takeWhile_subset _ h)
      · exact Or.inr h
      · exact Or.inl (List.dropWhile_subset _ h)
    · rw [List.mem_append, List.mem_singleton] at h
      exact h

theorem mem_onHeaders (headers : List String) (cols : JsObject ColumnStat)
    (e : String × ColumnStat) (h : e ∈ onHeaders headers cols) :
    e ∈ cols ∨ ∃ header ∈ headers, e = (header, freshColumn header) := by
  induction headers generalizing cols with
  | nil => exact Or.inl h
  | cons hd tl ih =>
    have h2 : onHeaders (hd :: tl) cols = onHeaders tl (cols.set hd (freshColumn hd)) := rfl
    rw [h2] at h
    rcases ih _ h with h3 | ⟨header, hmem, heq⟩
    · rcases mem_set _ _ _ _ h3 with h4 | h4
      · exact Or.inl h4
      · exact Or.inr ⟨hd, List.mem_cons_self _ _, h4⟩
    · exact Or.inr ⟨header, List.mem_cons_of_mem _ hmem, heq⟩

/-- Every entry of the final column table is the fresh column of a header
after it has observed, in row order, the cells the rows hold for it. -/
theorem mem_accumulate (js : JsBuiltins) (headers : List String) (rows : List Row)
    (hrows : ∀ row ∈ rows, row.keys.Nodup) (e : String × ColumnStat)
    (h : e ∈ accumulate js headers rows) :
    ∃ header ∈ headers,
      e = (header, (cellValues header rows).foldl (observe js) (freshColumn header)) := by
  unfold accumulate at h
  rw [foldl_onData_eq_map, List.mem_map] at h
  obtain ⟨e0, he0, rfl⟩ := h
  rcases mem_onHeaders headers [] e0 he0 with h1 | ⟨header, hmem, rfl⟩
  · simp at h1
  · exact ⟨header, hmem, by rw [foldl_columnAfterRow js header rows _ hrows]⟩

theorem setAdd_length_le (s : List String) (v : String) :
    (setAdd s v).length ≤ s.length + 1 := by
  unfold setAdd
  split_ifs <;> simp

theorem observe_counts_le (js : JsBuiltins) (col : ColumnStat) (v : String) :
    (observe js col v).nullCount + (observe js col v).uniqueValues.length
      ≤ col.nullCount + col.uniqueValues.length + 1 := by
  have hs := setAdd_length_le col.uniqueValues v
  unfold observe
  split_ifs <;> simp only <;> omega

theorem foldl_observe_counts_le (js : JsBuiltins) (vs : List String) (col : ColumnStat) :
    (vs.foldl (observe js) col).nullCount + (vs.foldl (observe js) col).uniqueValues.length
      ≤ col.nullCount + col.uniqueValues.length + vs.length := by
  induction vs generalizing col with
  | nil => simp
  | cons v rest ih =>
    have h1 := ih (observe js col v)
    have h2 := observe_counts_le js col v
    simp only [List.foldl_cons, List.length_cons]
    omega

theorem cellValues_length_le (k : String) (rows : List Row) :
    (cellValues k rows).length ≤ rows.length := by
  unfold cellValues
  exact List.length_filterMap_le _ _

theorem nullPercentage_range (col : ColumnStat) (n : Nat) (h : col.nullCount ≤ n) :
    0 ≤ nullPercentage col n ∧ nullPercentage col n ≤ 100 := by
  unfold nullPercentage
  have h0 : (0 : ℚ) ≤ (col.nullCount : ℚ) / (n : ℚ) := by positivity
  have h1 : (col.nullCount : ℚ) / (n : ℚ) ≤ 1 := by
    apply div_le_one_of_le₀
    · exact_mod_cast h
    · positivity
  constructor
  · positivity
  · linarith

theorem inferType_ne_unknown (js : JsBuiltins) (v : String) :
    inferType js v ≠ ColType.unknown := by
  unfold inferType
  split_ifs <;> decide

theorem observe_of_not_blank (js : JsBuiltins) (col : ColumnStat) (v : String)
    (h : isBlank v = false) :
    (observe js col v).name = col.name
      ∧ (observe js col v).nullCount = col.nullCount
      ∧ (observe js col v).uniqueValues = setAdd col.uniqueValues v
      ∧ (observe js col v).type
          = if col.type = ColType.unknown then inferType js v else col.type := by
  unfold observe
  simp [h]

theorem foldl_observe_of_typed (js : JsBuiltins) (vs : List String) (col : ColumnStat)
    (hnb : ∀ v ∈ vs, isBlank v = false) (ht : col.type ≠ ColType.unknown) :
    (vs.foldl (observe js) col).type = col.type := by
  induction vs generalizing col with
  | nil => rfl
  | cons v rest ih =>
    have hv := observe_of_not_blank js col v (hnb v (List.mem_cons_self _ _))
    have ht2 : (observe js col v).type = col.type := by rw [hv.2.2.2, if_neg ht]
    rw [List.foldl_cons, ih _ (fun w hw => hnb w (List.mem_cons_of_mem _ hw)) (by rw [ht2]; exact ht),
      ht2]

theorem foldl_observe_of_not_blank (js : JsBuiltins) (vs : List String) (col : ColumnStat)
    (hnb : ∀ v ∈ vs, isBlank v = false) :
    (vs.foldl (observe js) col).name = col.name
      ∧ (vs.foldl (observe js) col).nullCount = col.nullCount
      ∧ (vs.foldl (observe js) col).uniqueValues = vs.foldl setAdd col.uniqueValues := by
  induction vs generalizing col with
  | nil => exact ⟨rfl, rfl, rfl⟩
  | cons v rest ih =>
    have hv := observe_of_not_blank js col v (hnb v (List.mem_cons_self _ _))
    have hr := ih (observe js col v) (fun w hw => hnb w (List.mem_cons_of_mem _ hw))
    simp only [List.foldl_cons]
    rw [hr.1, hr.2.1, hr.2.2, hv.1, hv.2.1, hv.2.2.1]
    exact ⟨rfl, rfl, rfl⟩

theorem foldl_observe_type_of_fresh (js : JsBuiltins) (v : String) (rest : List String)
    (k : String) (hnb : ∀ w ∈ v :: rest, isBlank w = false) :
    ((v :: rest).foldl (observe js) (freshColumn k)).type = inferType js v := by
  have hv := observe_of_not_blank js (freshColumn k) v (hnb v (List.mem_cons_self _ _))
  have ht : (observe js (freshColumn k) v).type = inferType js v := by
    rw [hv.2.2.2]
    simp [freshColumn]
  rw [List.foldl_cons, foldl_observe_of_typed js rest _
    (fun w hw => hnb w (List.mem_cons_of_mem _ hw)) (by rw [ht]; exact inferType_ne_unknown js v),
    ht]

theorem foldl_setAdd_of_nodup (vs : List String) (s : List String) (h : (s ++ vs).Nodup) :
    vs.foldl setAdd s = s ++ vs := by
  induction vs generalizing s with
  | nil => simp
  | cons v rest ih =>
    have hv : v ∉ s := fun hm =>
      (List.nodup_cons.1 (List.nodup_middle.1 h)).1 (List.mem_append_left _ hm)
    have h2 : (s ++ [v] ++ rest).Nodup := by simpa using h
    rw [List.foldl_cons, setAdd, if_neg hv, ih _ h2]
    simp

/-- The column table as a map over the table of fresh columns. -/
theorem accumulate_eq_map (js : JsBuiltins) (headers : List String) (rows : List Row)
    (hrows : ∀ row ∈ rows, row.keys.Nodup) :
    accumulate js headers rows
      = (onHeaders headers []).map
          (fun e => (e.1, (cellValues e.1 rows).foldl (observe js) e.2)) := by
  unfold accumulate
  rw [foldl_onData_eq_map]
  apply List.map_congr_left
  intro e _
  rw [foldl_columnAfterRow js e.1 rows e.2 hrows]

theorem set_ne_nil {α : Type} (o : JsObject α) (k : String) (v : α)
    (h : o ≠ [] ∨ k ≠ "__proto__") : o.set k v ≠ [] := by
  unfold JsObject.set
  split_ifs with h1 h2
  · rcases h with h | h
    · exact h
    · exact absurd h1 h
  · intro h3
    have h4 := congrArg List.length h3
    rw [List.length_map] at h4
    have h5 : o = [] := List.length_eq_zero.mp h4
    rw [h5] at h2
    simp [JsObject.has] at h2
  · unfold JsObject.insertNew
    split_ifs <;> simp

theorem onHeaders_ne_nil_of_ne_nil (headers : List String) (cols : JsObject ColumnStat)
    (h : cols ≠ []) : onHeaders headers cols ≠ [] := by
  induction headers generalizing cols with
  | nil => exact h
  | cons hd tl ih => exact ih _ (set_ne_nil cols hd _ (Or.inl h))

theorem onHeaders_ne_nil (headers : List String) (cols : JsObject ColumnStat)
    (h : ∃ header ∈ headers, header ≠ "__proto__") : onHeaders headers cols ≠ [] := by
  induction headers generalizing cols with
  | nil => simp at h
  | cons hd tl ih =>
    have h2 : onHeaders (hd :: tl) cols = onHeaders tl (cols.set hd (freshColumn hd)) := rfl
    rw [h2]
    by_cases hp : hd = "__proto__"
    · obtain ⟨header, hmem, hne⟩ := h
      rcases List.mem_cons.1 hmem with h3 | h3
      · exact absurd (h3 ▸ hp) hne
      · exact ih _ ⟨header, h3, hne⟩
    · exact onHeaders_ne_nil_of_ne_nil tl _ (set_ne_nil cols hd _ (Or.inr hp))

theorem accumulate_length (js : JsBuiltins) (headers : List String) (rows : List Row) :
    (accumulate js headers rows).length = (onHeaders headers []).length := by
  unfold accumulate
  rw [foldl_onData_eq_map, List.length_map]

theorem accumulate_ne_nil (js : JsBuiltins) (headers : List String) (rows : List Row)
    (h : ∃ header ∈ headers, header ≠ "__proto__") : accumulate js headers rows ≠ [] := by
  unfold accumulate
  rw [foldl_onData_eq_map]
  intro h2
  exact onHeaders_ne_nil headers [] h (List.map_eq_nil_iff.mp h2)

/-- A column without nulls, not typed `string` and not constant has no
penalty and no issue. -/
theorem clean_column (js : JsBuiltins) (n : Nat) (col : ColumnStat) (h0 : col.nullCount = 0)
    (ht : col.type ≠ ColType.string) (hu : col.uniqueValues.length ≠ 1) :
    columnPenalty n col = 0 ∧ columnIssues js n col = [] := by
  constructor
  · unfold columnPenalty
    norm_num [h0, ht, hu]
  · unfold columnIssues missingIssues cardinalityIssues constantIssues nullPercentage
    norm_num [h0, ht, hu]

/-- A string column without nulls whose values are all distinct, over at
least two rows, has the penalty 10 and the high-cardinality issue. -/
theorem distinct_string_column (js : JsBuiltins) (n : Nat) (col : ColumnStat) (hn : 2 ≤ n)
    (h0 : col.nullCount = 0) (ht : col.type = ColType.string)
    (hu : col.uniqueValues.length = n) :
    columnPenalty n col = 10
      ∧ columnIssues js n col
        = ["High cardinality in '" ++ col.name ++ "': " ++ js.percentText 100 ++ "% unique values"] := by
  have hq : (n : ℚ) ≠ 0 := by
    have : 0 < n := by omega
    positivity
  have h1 : ¬ n = 1 := by omega
  have hup : uniquePercentage col n = 100 := by
    unfold uniquePercentage
    rw [hu, div_self hq]
    norm_num
  constructor
  · unfold columnPenalty
    rw [← uniquePercentage_eq, hup]
    simp only [h0, ht, hu, h1]
    norm_num
  · unfold columnIssues missingIssues cardinalityIssues constantIssues nullPercentage
    rw [hup]
    simp only [h0, ht, hu, h1]
    norm_num

theorem sum_map_eq_zero {α : Type} (l : List α) (f : α → Nat) (h : ∀ a ∈ l, f a = 0) :
    (l.map f).sum = 0 := by
  induction l with
  | nil => rfl
  | cons a rest ih =>
    rw [List.map_cons, List.sum_cons, h a (List.mem_cons_self _ _),
      ih (fun b hb => h b (List.mem_cons_of_mem _ hb))]

theorem flatten_map_eq_nil {α β : Type} (l : List α) (f : α → List β) (h : ∀ a ∈ l, f a = []) :
    (l.map f).flatten = [] := by
  induction l with
  | nil => rfl
  | cons a rest ih =>
    rw [List.map_cons, List.flatten_cons, h a (List.mem_cons_self _ _),
      ih (fun b hb => h b (List.mem_cons_of_mem _ hb))]
    rfl

theorem inferType_of_numeric (js : JsBuiltins) (v : String)
    (h : (numberIsNumeric v && parseFloatIsNumeric v) = true) :
    inferType js v ≠ ColType.string := by
  unfold inferType
  rw [if_pos h]
  split_ifs <;> decide

theorem issueSequence_rome (js : JsBuiltins) :
    issueSequence js romeRows.length romeColumns.values
      = ["Small dataset: only 2 rows",
         "Constant column 'city' provides no information",
         "High missing values in 'zip': " ++ js.percentText 100 ++ "%"] := by
  have e : "High missing values in '" ++ "zip" ++ "': " = "High missing values in 'zip': " := by
    decide
  norm_num [issueSequence, volumeIssues, columnIssues, missingIssues, cardinalityIssues,
    constantIssues, romeRows, romeColumns, JsObject.values, nullPercentage, uniquePercentage]
  refine ⟨by decide, by decide, ?_⟩
  rw [e]

/-! ## The claims on the scorer and the adapter -/

/-- C1: with at least one row and one column the score of
`calculateMLReadiness` is `max(0, 100 - P)`, where `P` is the sum of the
penalties of the rule table (`totalPenalty`). -/
theorem score_eq_hundred_minus_penalties (js : JsBuiltins) (rows : List Row)
    (columns : JsObject ColumnStat) (hr : rows ≠ []) (hc : columns ≠ []) :
    (calculateMLReadiness js rows columns).score
      = max 0 (100 - (totalPenalty rows.length columns.values : Int)) := by
  rw [(calculateMLReadiness_data js rows columns hr hc).1]
  exact clampScore_of_le _ (by omega)

/-- Witness of C1: on `romeRows` the penalties are 20 (small dataset), 20
(constant `city`) and 15 (missing `zip`), and the score is 45. -/
theorem score_eq_hundred_minus_penalties_witness :
    romeRows ≠ [] ∧ romeColumns ≠ [] ∧
      (∀ js : JsBuiltins, (calculateMLReadiness js romeRows romeColumns).score = 45) :=
  ⟨by decide, by decide, fun js =>
    (score_eq_hundred_minus_penalties js romeRows romeColumns (by decide) (by decide)).trans
      (by norm_num [totalPenalty, columnPenalty, romeRows, romeColumns, JsObject.values])⟩

/-- C2: for all rows and all column tables, empty ones included, the score
of `calculateMLReadiness` is an integer between 0 and 100. -/
theorem score_between_0_and_100 (js : JsBuiltins) (rows : List Row)
    (columns : JsObject ColumnStat) :
    0 ≤ (calculateMLReadiness js rows columns).score
      ∧ (calculateMLReadiness js rows columns).score ≤ 100 := by
  by_cases h : rows = [] ∨ columns = []
  · rw [calculateMLReadiness_empty js rows columns h]
    simp
  · rw [not_or] at h
    rw [(calculateMLReadiness_data js rows columns h.1 h.2).1]
    exact clampScore_range _

/-- C3 as stated fails: the adapter returns the rounded foreign score
without clamping it; a report whose score is 150 yields 150. -/
theorem adapter_score_not_clamped :
    (∀ js : JsBuiltins,
        (convertDataprofToApiResponse js (scoreOnlyReport 150) "data.csv").score = 150)
      ∧ ¬ ((150 : Int) ≤ 100) := by
  refine ⟨fun js => ?_, by decide⟩
  simp only [convertDataprofToApiResponse, scoreOnlyReport, DataprofResult.mlReadiness,
    Option.bind, numberOr, mathRound]
  rw [if_neg (by norm_num), Int.floor_eq_iff]
  norm_num

/-- C3 amended: the score of the adapter is the foreign score rounded to the
nearest integer (0 when it is absent), and it lies between 0 and 100 whenever
the foreign score, if present, lies between 0 and 100. -/
theorem adapter_score_in_range_of_foreign (js : JsBuiltins) (r : DataprofResult)
    (filename : String)
    (h : ∀ s, r.mlReadiness.bind (fun m => m.score) = some s → 0 ≤ s ∧ s ≤ 100) :
    (convertDataprofToApiResponse js r filename).score
        = mathRound (numberOr (r.mlReadiness.bind (fun m => m.score)) 0)
      ∧ 0 ≤ (convertDataprofToApiResponse js r filename).score
      ∧ (convertDataprofToApiResponse js r filename).score ≤ 100 := by
  refine ⟨rfl, ?_⟩
  simp only [convertDataprofToApiResponse, mathRound]
  have hb : 0 ≤ numberOr (r.mlReadiness.bind (fun m => m.score)) 0
      ∧ numberOr (r.mlReadiness.bind (fun m => m.score)) 0 ≤ 100 := by
    cases hs : r.mlReadiness.bind (fun m => m.score) with
    | none => simp [numberOr]
    | some s =>
      have hs2 := h s hs
      simp only [numberOr]
      split_ifs
      · norm_num
      · exact hs2
  constructor
  · exact Int.floor_nonneg.mpr (by linarith [hb.1])
  · have h2 : ⌊numberOr (r.mlReadiness.bind (fun m => m.score)) 0 + 1 / 2⌋ < 101 := by
      rw [Int.floor_lt]
      push_cast
      linarith [hb.2]
    omega

/-- Witness of C3 amended: a foreign score of 87.6 is returned as 88. -/
theorem adapter_score_in_range_of_foreign_witness :
    (∀ s, (scoreOnlyReport (438 / 5)).mlReadiness.bind (fun m => m.score) = some s
        → 0 ≤ s ∧ s ≤ 100)
      ∧ (∀ js : JsBuiltins,
          (convertDataprofToApiResponse js (scoreOnlyReport (438 / 5)) "data.csv").score = 88) := by
  have h : ∀ s, (scoreOnlyReport (438 / 5)).mlReadiness.bind (fun m => m.score) = some s
      → 0 ≤ s ∧ s ≤ 100 := by
    intro s hs
    simp only [scoreOnlyReport, DataprofResult.mlReadiness, Option.bind, Option.some.injEq] at hs
    subst hs
    norm_num
  refine ⟨h, fun js => ?_⟩
  rw [(adapter_score_in_range_of_foreign js (scoreOnlyReport (438 / 5)) "data.csv" h).1]
  simp only [scoreOnlyReport, DataprofResult.mlReadiness, Option.bind, numberOr, mathRound]
  rw [if_neg (by norm_num), Int.floor_eq_iff]
  norm_num

/-- C4: the scorer and the adapter each return at most five issues and at
most five recommendations, for every input. -/
theorem issues_and_recommendations_at_most_five (js : JsBuiltins) (rows : List Row)
    (columns : JsObject ColumnStat) (r : DataprofResult) (filename : String) :
    (calculateMLReadiness js rows columns).issues.length ≤ 5
      ∧ (calculateMLReadiness js rows columns).recommendations.length ≤ 5
      ∧ (convertDataprofToApiResponse js r filename).issues.length ≤ 5
      ∧ (convertDataprofToApiResponse js r filename).recommendations.length ≤ 5 := by
  have hb : (calculateMLReadiness js rows columns).issues.length ≤ 5
      ∧ (calculateMLReadiness js rows columns).recommendations.length ≤ 5 := by
    by_cases h : rows = [] ∨ columns = []
    · rw [calculateMLReadiness_empty js rows columns h]
      simp
    · rw [not_or] at h
      rw [(calculateMLReadiness_data js rows columns h.1 h.2).2.1,
        (calculateMLReadiness_data js rows columns h.1 h.2).2.2]
      simp [List.length_take]
  refine ⟨hb.1, hb.2, ?_, ?_⟩
  · simp [convertDataprofToApiResponse, List.length_take]
  · simp [convertDataprofToApiResponse, List.length_take]

/-- C5: with zero rows or zero columns `calculateMLReadiness` returns the
object with score 0, the single issue `No data found`, the single
recommendation `Upload a valid CSV file with data` and nothing else. -/
theorem no_data_result (js : JsBuiltins) (rows : List Row) (columns : JsObject ColumnStat)
    (h : rows = [] ∨ columns = []) :
    calculateMLReadiness js rows columns
      = { score := 0
          issues := ["No data found"]
          recommendations := ["Upload a valid CSV file with data"]
          detail := none } :=
  calculateMLReadiness_empty js rows columns h

/-- Witness of C5: no rows, and a non-empty column table. -/
theorem no_data_result_witness :
    (([] : List Row) = [] ∨ romeColumns = []) ∧
      (∀ js : JsBuiltins, calculateMLReadiness js [] romeColumns
        = { score := 0
            issues := ["No data found"]
            recommendations := ["Upload a valid CSV file with data"]
            detail := none }) :=
  ⟨Or.inl rfl, fun js => no_data_result js [] romeColumns (Or.inl rfl)⟩

/-- C7 as stated fails: with six constant columns and one row, five issues
are collected before the constant-column issue of `c6`, and the cap of five
drops it from the returned issues. -/
theorem constant_issue_cut_by_cap :
    sixConstantRows ≠ [] ∧ sevenColumn "c6" ∈ sixConstantColumns.values
      ∧ (sevenColumn "c6").uniqueValues.length = 1 ∧ (sevenColumn "c6").nullCount = 0
      ∧ (∀ js : JsBuiltins,
          (calculateMLReadiness js sixConstantRows sixConstantColumns).issues
            = ["Small dataset: only 1 rows",
               "Constant column 'c1' provides no information",
               "Constant column 'c2' provides no information",
               "Constant column 'c3' provides no information",
               "Constant column 'c4' provides no information"])
      ∧ ("Constant column '" ++ (sevenColumn "c6").name ++ "' provides no information")
          ∉ ["Small dataset: only 1 rows",
             "Constant column 'c1' provides no information",
             "Constant column 'c2' provides no information",
             "Constant column 'c3' provides no information",
             "Constant column 'c4' provides no information"] := by
  refine ⟨by decide, by decide, by decide, by decide, fun js => ?_, by decide⟩
  rw [(calculateMLReadiness_data js sixConstantRows sixConstantColumns (by decide)
    (by decide)).2.1]
  have hv : sixConstantColumns.values
      = [sevenColumn "c1", sevenColumn "c2", sevenColumn "c3", sevenColumn "c4",
         sevenColumn "c5", sevenColumn "c6"] := by decide
  have hl : sixConstantRows.length = 1 := by decide
  rw [hv, hl]
  simp only [issueSequence, volumeIssues, List.map, columnIssues_sevenColumn]
  decide

/-- C7 amended: for an input with at least one row and a column with exactly
one distinct value and no nulls, the constant rule subtracts exactly 20 from
the running score and appends the constant-column issue (the missing-values
rule leaves the tally as it is); that issue is among the issues collected
before the cap; the issues returned are the first five collected, so they
contain it exactly when it is among the first five collected, and in
particular whenever at most five issues are collected. -/
theorem constant_column_issue_and_penalty (js : JsBuiltins) (rows : List Row)
    (columns : JsObject ColumnStat) (col : ColumnStat) (hr : rows ≠ [])
    (hc : col ∈ columns.values) (h1 : col.uniqueValues.length = 1) (h0 : col.nullCount = 0) :
    (∀ t : Tally, (constantRule col t).score = t.score - 20
        ∧ (constantRule col t).issues
          = t.issues ++ ["Constant column '" ++ col.name ++ "' provides no information"]
        ∧ missingRule js rows.length col t = t)
      ∧ ("Constant column '" ++ col.name ++ "' provides no information")
          ∈ issueSequence js rows.length columns.values
      ∧ (calculateMLReadiness js rows columns).issues
          = (issueSequence js rows.length columns.values).take 5
      ∧ (("Constant column '" ++ col.name ++ "' provides no information")
            ∈ (calculateMLReadiness js rows columns).issues
          ↔ ("Constant column '" ++ col.name ++ "' provides no information")
            ∈ (issueSequence js rows.length columns.values).take 5)
      ∧ ((issueSequence js rows.length columns.values).length ≤ 5 →
          ("Constant column '" ++ col.name ++ "' provides no information")
            ∈ (calculateMLReadiness js rows columns).issues) := by
  have hne : columns ≠ [] := by
    intro h0
    rw [h0] at hc
    simp [JsObject.values] at hc
  have hret := (calculateMLReadiness_data js rows columns hr hne).2.1
  refine ⟨fun t => ?_, mem_issueSequence_of_constant js _ _ col hc h1, hret, by rw [hret],
    fun hlen => ?_⟩
  · refine ⟨by simp [constantRule, h1], by simp [constantRule, h1], ?_⟩
    unfold missingRule nullPercentage
    norm_num [h0]
  · rw [hret, List.take_of_length_le hlen]
    exact mem_issueSequence_of_constant js _ _ col hc h1

/-- Witness of C7 amended: the constant column `city` of `romeRows`; three
issues are collected and the constant-column issue is returned. -/
theorem constant_column_issue_and_penalty_witness :
    romeRows ≠ [] ∧
      (∀ js : JsBuiltins,
        "Constant column 'city' provides no information"
          ∈ (calculateMLReadiness js romeRows romeColumns).issues) := by
  refine ⟨by decide, fun js => ?_⟩
  have hlen : (issueSequence js romeRows.length romeColumns.values).length ≤ 5 := by
    rw [issueSequence_rome]
    simp
  exact (constant_column_issue_and_penalty js romeRows romeColumns
    { name := "city", type := ColType.string, nullCount := 0, uniqueValues := ["Rome"],
      samples := ["Rome", "Rome"] } (by decide) (by decide) (by decide) (by decide)).2.2.2.2 hlen

/-! ## The claims on the accumulator -/

/-- C10: for every header and every sequence of rows (objects, so with
pairwise distinct keys) streamed through the `headers` and `data` handlers,
each column ends with `nullCount + size(uniqueValues) <= number of rows`;
hence its reported `uniqueValues` is at most `totalRows - nullCount` and its
null percentage lies between 0 and 100.  The report lists exactly these
columns. -/
theorem accumulator_counts_within_rows (js : JsBuiltins) (headers : List String)
    (rows : List Row) (hrows : ∀ row ∈ rows, row.keys.Nodup) :
    (∀ col ∈ (accumulate js headers rows).values,
        col.nullCount + col.uniqueValues.length ≤ rows.length
          ∧ (columnReport js rows.length col).uniqueValues ≤ rows.length - col.nullCount
          ∧ 0 ≤ nullPercentage col rows.length ∧ nullPercentage col rows.length ≤ 100)
      ∧ (∀ d, (analyzeCSV js headers rows).detail = some d →
          d.totalRows = rows.length
            ∧ d.columns = (accumulate js headers rows).values.map (columnReport js rows.length)) := by
  constructor
  · intro col hcol
    simp only [JsObject.values, List.mem_map] at hcol
    obtain ⟨e, he, rfl⟩ := hcol
    obtain ⟨header, _, rfl⟩ := mem_accumulate js headers rows hrows e he
    dsimp only
    have h1 := foldl_observe_counts_le js (cellValues header rows) (freshColumn header)
    have h2 := cellValues_length_le header rows
    have h3 : (freshColumn header).nullCount + (freshColumn header).uniqueValues.length = 0 := rfl
    have h4 : ((cellValues header rows).foldl (observe js) (freshColumn header)).nullCount
        + ((cellValues header rows).foldl (observe js) (freshColumn header)).uniqueValues.length
        ≤ rows.length := by omega
    refine ⟨h4, ?_, nullPercentage_range _ _ (by omega)⟩
    simp only [columnReport]
    omega
  · intro d hd
    by_cases h : rows = [] ∨ accumulate js headers rows = []
    · rw [analyzeCSV, calculateMLReadiness_empty _ _ _ h] at hd
      simp at hd
    · have h1 : ¬ (rows.length = 0 ∨ (accumulate js headers rows).keys.length = 0) := by
        simpa [JsObject.keys] using h
      unfold analyzeCSV calculateMLReadiness at hd
      simp only [h1, if_false, Option.some.injEq] at hd
      subst hd
      exact ⟨rfl, rfl⟩

/-- Witness of C10: the two rows of `romeRows` under the header `city,zip`. -/
theorem accumulator_counts_within_rows_witness :
    (∀ row ∈ romeRows, row.keys.Nodup)
      ∧ (∀ js : JsBuiltins, ∀ col ∈ (accumulate js ["city", "zip"] romeRows).values,
          col.nullCount + col.uniqueValues.length ≤ 2) :=
  ⟨by decide, fun js col hcol =>
    ((accumulator_counts_within_rows js ["city", "zip"] romeRows (by decide)).1 col hcol).1⟩

/-- The statistics of a column all of whose cells are present, non-blank
and pairwise distinct. -/
theorem column_of_distinct_values (js : JsBuiltins) (k : String) (rows : List Row)
    (hlen : (cellValues k rows).length = rows.length)
    (hnb : ∀ v ∈ cellValues k rows, isBlank v = false)
    (hnd : (cellValues k rows).Nodup) :
    ((cellValues k rows).foldl (observe js) (freshColumn k)).name = k
      ∧ ((cellValues k rows).foldl (observe js) (freshColumn k)).nullCount = 0
      ∧ ((cellValues k rows).foldl (observe js) (freshColumn k)).uniqueValues.length
          = rows.length := by
  have h := foldl_observe_of_not_blank js (cellValues k rows) (freshColumn k) hnb
  refine ⟨h.1, h.2.1, ?_⟩
  rw [h.2.2, foldl_setAdd_of_nodup _ _ (by simpa [freshColumn] using hnd)]
  simpa [freshColumn] using hlen

/-- C8 as stated fails: `fiftyRows` has 50 rows and 3 columns, every cell
non-blank, every column with 50 pairwise distinct values; its `name` column
starts with the text `a`, which is neither a number nor (for a date parser
that rejects `a`) a date, so the column is typed `string`, the
high-cardinality rule fires, the score is 70 and there are two issues. -/
theorem fifty_distinct_rows_score_70 :
    fiftyRows.length = 50 ∧ (onHeaders fiftyHeaders []).length = 3
      ∧ (∀ row ∈ fiftyRows, row.keys = fiftyHeaders)
      ∧ (∀ h ∈ fiftyHeaders, (cellValues h fiftyRows).length = 50
          ∧ (cellValues h fiftyRows).Nodup ∧ ∀ v ∈ cellValues h fiftyRows, isBlank v = false)
      ∧ (∀ js : JsBuiltins, js.dateParse "a" = none →
          (analyzeCSV js fiftyHeaders fiftyRows).score = 70
            ∧ (analyzeCSV js fiftyHeaders fiftyRows).issues
              = ["Small dataset: only 50 rows",
                 "High cardinality in 'name': " ++ js.percentText 100 ++ "% unique values"]) := by
  have hkeys : ∀ row ∈ fiftyRows, row.keys = fiftyHeaders := by
    set_option maxRecDepth 100000 in decide
  have hcols : ∀ h ∈ fiftyHeaders, (cellValues h fiftyRows).length = 50
      ∧ (cellValues h fiftyRows).Nodup ∧ ∀ v ∈ cellValues h fiftyRows, isBlank v = false := by
    set_option maxRecDepth 100000 in decide
  refine ⟨by decide, by decide, hkeys, hcols, fun js hjs => ?_⟩
  have hnd : ∀ row ∈ fiftyRows, row.keys.Nodup := by
    intro row hrow
    rw [hkeys row hrow]
    decide
  have hl : fiftyRows.length = 50 := by decide
  have hfact : ∀ k ∈ fiftyHeaders,
      ((cellValues k fiftyRows).foldl (observe js) (freshColumn k)).name = k
        ∧ ((cellValues k fiftyRows).foldl (observe js) (freshColumn k)).nullCount = 0
        ∧ ((cellValues k fiftyRows).foldl (observe js) (freshColumn k)).uniqueValues.length
            = 50 := by
    intro k hk
    have h := column_of_distinct_values js k fiftyRows (by rw [(hcols k hk).1, hl])
      (hcols k hk).2.2 (hcols k hk).2.1
    rw [hl] at h
    exact h
  have htype : ∀ k ∈ fiftyHeaders, ∀ v rest, cellValues k fiftyRows = v :: rest →
      ((cellValues k fiftyRows).foldl (observe js) (freshColumn k)).type = inferType js v := by
    intro k hk v rest hv
    have hnb := (hcols k hk).2.2
    rw [hv] at hnb ⊢
    exact foldl_observe_type_of_fresh js v rest k hnb
  have hid : ∃ rest, cellValues "id" fiftyRows = "0" :: rest :=
    ⟨(cellValues "id" fiftyRows).tail, by set_option maxRecDepth 100000 in decide⟩
  have hname : ∃ rest, cellValues "name" fiftyRows = "a" :: rest :=
    ⟨(cellValues "name" fiftyRows).tail, by set_option maxRecDepth 100000 in decide⟩
  have hqty : ∃ rest, cellValues "qty" fiftyRows = "100" :: rest :=
    ⟨(cellValues "qty" fiftyRows).tail, by set_option maxRecDepth 100000 in decide⟩
  obtain ⟨r1, hid⟩ := hid
  obtain ⟨r2, hname⟩ := hname
  obtain ⟨r3, hqty⟩ := hqty
  have t1 : inferType js "0" = ColType.integer := by
    have h : (numberIsNumeric "0" && parseFloatIsNumeric "0") = true := by decide
    have h2 : ("0".data.contains '.') = false := by decide
    simp [inferType, h, h2]
  have t2 : inferType js "a" = ColType.string := by
    have h : (numberIsNumeric "a" && parseFloatIsNumeric "a") = false := by decide
    simp [inferType, h, isValidDate, hjs]
  have t3 : inferType js "100" = ColType.integer := by
    have h : (numberIsNumeric "100" && parseFloatIsNumeric "100") = true := by decide
    have h2 : ("100".data.contains '.') = false := by decide
    simp [inferType, h, h2]
  have k1 : "id" ∈ fiftyHeaders := by decide
  have k2 : "name" ∈ fiftyHeaders := by decide
  have k3 : "qty" ∈ fiftyHeaders := by decide
  have c1 := clean_column js 50 _ (hfact "id" k1).2.1
    (by rw [htype "id" k1 _ _ hid, t1]; decide) (by rw [(hfact "id" k1).2.2]; decide)
  have c2 := distinct_string_column js 50 _ (by decide) (hfact "name" k2).2.1
    (by rw [htype "name" k2 _ _ hname, t2]) (hfact "name" k2).2.2
  have c3 := clean_column js 50 _ (hfact "qty" k3).2.1
    (by rw [htype "qty" k3 _ _ hqty, t3]; decide) (by rw [(hfact "qty" k3).2.2]; decide)
  rw [(hfact "name" k2).1] at c2
  have htab : (accumulate js fiftyHeaders fiftyRows).values
      = [(cellValues "id" fiftyRows).foldl (observe js) (freshColumn "id"),
         (cellValues "name" fiftyRows).foldl (observe js) (freshColumn "name"),
         (cellValues "qty" fiftyRows).foldl (observe js) (freshColumn "qty")] := by
    have h0 : onHeaders fiftyHeaders []
        = [("id", freshColumn "id"), ("name", freshColumn "name"), ("qty", freshColumn "qty")] := by
      decide
    rw [accumulate_eq_map js fiftyHeaders fiftyRows hnd, h0]
    rfl
  have hne : accumulate js fiftyHeaders fiftyRows ≠ [] :=
    accumulate_ne_nil js fiftyHeaders fiftyRows ⟨"id", k1, by decide⟩
  have hdata := calculateMLReadiness_data js fiftyRows (accumulate js fiftyHeaders fiftyRows)
    (by decide) hne
  unfold analyzeCSV
  rw [hdata.1, hdata.2.1, htab, hl]
  constructor
  · simp only [totalPenalty, List.map, List.sum_cons, List.sum_nil, c1.1, c2.1, c3.1]
    decide
  · simp only [issueSequence, volumeIssues, List.map, List.flatten, c1.2, c2.2, c3.2]
    simp
    decide

/-- C8 amended: for a dataset of exactly 50 rows and 3 columns in which every
cell is non-blank and every column's 50 values are pairwise distinct, and in
which no column's first value is classified `string` by the type inference,
the built-in path returns the score 80 and the single issue
`Small dataset: only 50 rows`. -/
theorem fifty_distinct_rows_score_80 (js : JsBuiltins) (headers : List String)
    (rows : List Row) (hrows : rows.length = 50) (hcols : (onHeaders headers []).length = 3)
    (hkeys : ∀ row ∈ rows, row.keys.Nodup)
    (hfull : ∀ h ∈ headers, (cellValues h rows).length = 50)
    (hnb : ∀ h ∈ headers, ∀ v ∈ cellValues h rows, isBlank v = false)
    (hdist : ∀ h ∈ headers, (cellValues h rows).Nodup)
    (htype : ∀ h ∈ headers, ∀ v, (cellValues h rows).head? = some v →
      inferType js v ≠ ColType.string) :
    (analyzeCSV js headers rows).score = 80
      ∧ (analyzeCSV js headers rows).issues = ["Small dataset: only 50 rows"] := by
  have hne : accumulate js headers rows ≠ [] := by
    intro h
    have h2 := congrArg List.length h
    rw [accumulate_length, hcols] at h2
    simp at h2
  have hrne : rows ≠ [] := by
    intro h
    rw [h] at hrows
    simp at hrows
  have hclean : ∀ col ∈ (accumulate js headers rows).values,
      columnPenalty 50 col = 0 ∧ columnIssues js 50 col = [] := by
    intro col hcol
    simp only [JsObject.values, List.mem_map] at hcol
    obtain ⟨e, he, rfl⟩ := hcol
    obtain ⟨k, hk, rfl⟩ := mem_accumulate js headers rows hkeys e he
    dsimp only
    have h := column_of_distinct_values js k rows (by rw [hfull k hk, hrows]) (hnb k hk)
      (hdist k hk)
    rw [hrows] at h
    refine clean_column js 50 _ h.2.1 ?_ (by rw [h.2.2]; decide)
    cases hv : cellValues k rows with
    | nil =>
      have := hfull k hk
      rw [hv] at this
      simp at this
    | cons v rest =>
      have hnb2 := hnb k hk
      rw [hv] at hnb2
      rw [foldl_observe_type_of_fresh js v rest k hnb2]
      exact htype k hk v (by rw [hv]; rfl)
  have hdata := calculateMLReadiness_data js rows (accumulate js headers rows) hrne hne
  unfold analyzeCSV
  rw [hdata.1, hdata.2.1, hrows]
  constructor
  · rw [totalPenalty, sum_map_eq_zero _ _ (fun c hc => (hclean c hc).1)]
    decide
  · rw [issueSequence, flatten_map_eq_nil _ _ (fun c hc => (hclean c hc).2)]
    decide

/-- Witness of C8 amended: `numericRows`, whose three columns start with
the numbers `0`, `100` and `0.5`. -/
theorem fifty_distinct_rows_score_80_witness :
    numericRows.length = 50 ∧ (onHeaders numericHeaders []).length = 3
      ∧ (∀ row ∈ numericRows, row.keys.Nodup)
      ∧ (∀ h ∈ numericHeaders, (cellValues h numericRows).length = 50)
      ∧ (∀ h ∈ numericHeaders, ∀ v ∈ cellValues h numericRows, isBlank v = false)
      ∧ (∀ h ∈ numericHeaders, (cellValues h numericRows).Nodup)
      ∧ (∀ js : JsBuiltins,
          (analyzeCSV js numericHeaders numericRows).score = 80
            ∧ (analyzeCSV js numericHeaders numericRows).issues
              = ["Small dataset: only 50 rows"]) := by
  have h1 : ∀ row ∈ numericRows, row.keys.Nodup := by
    set_option maxRecDepth 100000 in decide
  have h2 : ∀ h ∈ numericHeaders, (cellValues h numericRows).length = 50 := by
    set_option maxRecDepth 100000 in decide
  have h3 : ∀ h ∈ numericHeaders, ∀ v ∈ cellValues h numericRows, isBlank v = false := by
    set_option maxRecDepth 100000 in decide
  have h4 : ∀ h ∈ numericHeaders, (cellValues h numericRows).Nodup := by
    set_option maxRecDepth 100000 in decide
  have h5 : ∀ h ∈ numericHeaders, ∀ v, (cellValues h numericRows).head? = some v →
      (numberIsNumeric v && parseFloatIsNumeric v) = true := by
    set_option maxRecDepth 100000 in
    have h6 : ∀ h ∈ numericHeaders, ∀ v ∈ ((cellValues h numericRows).head?).toList,
        (numberIsNumeric v && parseFloatIsNumeric v) = true := by decide
    intro h hh v hv
    exact h6 h hh v (by rw [hv]; simp)
  exact ⟨by decide, by decide, h1, h2, h3, h4, fun js =>
    fifty_distinct_rows_score_80 js numericHeaders numericRows (by decide) (by decide)
      h1 h2 h3 h4 (fun h hh v hv => inferType_of_numeric js v (h5 h hh v hv))⟩

/-! ## Lemmas on the report, the type of a column and the handler -/

/-- The detail of the report when there is at least one row and one column. -/
theorem calculateMLReadiness_detail (js : JsBuiltins) (rows : List Row)
    (columns : JsObject ColumnStat) (hr : rows ≠ []) (hc : columns ≠ []) :
    (calculateMLReadiness js rows columns).detail
      = some { totalRows := rows.length
               totalColumns := columns.keys.length
               columnTypes := countTypes columns.values
               columns := columns.values.map (columnReport js rows.length) } := by
  have h1 : ¬ (rows.length = 0 ∨ columns.keys.length = 0) := by
    simp [JsObject.keys, hr, hc]
  unfold calculateMLReadiness
  simp only [h1, if_false]

theorem observe_type_of_blank (js : JsBuiltins) (col : ColumnStat) (v : String)
    (h : isBlank v = true) : (observe js col v).type = col.type := by
  unfold observe
  simp [h]

/-- The type of a column after it has observed a sequence of cell texts. -/
theorem foldl_observe_type (js : JsBuiltins) (vs : List String) (col : ColumnStat) :
    (vs.foldl (observe js) col).type
      = if col.type = ColType.unknown then stickyType js vs else col.type := by
  induction vs generalizing col with
  | nil =>
    simp only [List.foldl_nil, stickyType, firstNonBlank, List.find?_nil]
    split_ifs with h
    · exact h
    · rfl
  | cons v rest ih =>
    rw [List.foldl_cons, ih]
    by_cases hb : isBlank v = true
    · have hs : stickyType js (v :: rest) = stickyType js rest := by
        simp [stickyType, firstNonBlank, List.find?_cons, hb]
      rw [observe_type_of_blank js col v hb, hs]
    · have hb2 : isBlank v = false := by simpa using hb
      have hs : stickyType js (v :: rest) = inferType js v := by
        simp [stickyType, firstNonBlank, List.find?_cons, hb2]
      rw [(observe_of_not_blank js col v hb2).2.2.2, hs]
      by_cases ht : col.type = ColType.unknown
      · simp only [if_pos ht, if_neg (inferType_ne_unknown js v)]
      · rw [if_neg ht, if_neg ht]

theorem stickyType_append (js : JsBuiltins) (vs later : List String) (v : String)
    (h : firstNonBlank vs = some v) : stickyType js (vs ++ later) = inferType js v := by
  unfold stickyType firstNonBlank at *
  rw [List.find?_append, h]
  rfl

/-! ## The claims on the report shape, the handler and the type inference -/

/-- C12: the handler returns the external engine's result, tagged
`dataprof-v0.4.6`, whenever the external engine succeeds; on every error of
the external engine (a non-zero or missing exit code, empty output,
unparsable output, a failure to start) it returns the built-in result tagged
`fallback-js-v1` when the built-in engine succeeds; it returns an error
exactly when both fail, and the error details are the built-in engine's
message. -/
theorem fallback_orchestration (js : JsBuiltins) (parseReport : String → Option DataprofResult)
    (run : EngineRun) (stream : CsvStream) (filename : String) :
    (∀ a, analyzeWithDataprof js parseReport run filename = Except.ok a →
        handleUpload js parseReport run stream filename
            = HandlerResponse.ok filename (EngineAnalysis.dataprof a) "dataprof-v0.4.6"
          ∧ a.processingEngine = "dataprof-v0.4.6")
      ∧ (∀ e a, analyzeWithDataprof js parseReport run filename = Except.error e →
          analyzeCSVPromise js stream = Except.ok a →
          handleUpload js parseReport run stream filename
            = HandlerResponse.ok filename (EngineAnalysis.builtin a "fallback-js-v1")
                "fallback-js")
      ∧ (∀ e1 e2, analyzeWithDataprof js parseReport run filename = Except.error e1 →
          analyzeCSVPromise js stream = Except.error e2 →
          handleUpload js parseReport run stream filename
            = HandlerResponse.serverError "Failed to analyze CSV file" e2)
      ∧ ((∃ err details, handleUpload js parseReport run stream filename
            = HandlerResponse.serverError err details)
          ↔ (∃ e1 e2, analyzeWithDataprof js parseReport run filename = Except.error e1
              ∧ analyzeCSVPromise js stream = Except.error e2))
      ∧ ((∀ code out err, run = EngineRun.closed code out err →
            (code ≠ some 0 ∨ out = "" ∨ parseReport out = none) →
            ∃ e, analyzeWithDataprof js parseReport run filename = Except.error e)
          ∧ (∀ message, run = EngineRun.failed message →
            analyzeWithDataprof js parseReport run filename = Except.error message)) := by
  refine ⟨?_, ?_, ?_, ?_, ?_, ?_⟩
  · intro a ha
    constructor
    · simp [handleUpload, respond, ha]
    · unfold analyzeWithDataprof at ha
      cases run with
      | failed message => simp at ha
      | closed code out err =>
        simp only at ha
        split_ifs at ha
        · cases hp : parseReport out with
          | none => simp [hp] at ha
          | some rep =>
            simp only [hp, Except.ok.injEq] at ha
            rw [← ha]
            rfl
  · intro e a he ha
    simp [handleUpload, respond, he, ha]
  · intro e1 e2 h1 h2
    simp [handleUpload, respond, h1, h2]
  · constructor
    · rintro ⟨err, details, h⟩
      unfold handleUpload respond at h
      cases hx : analyzeWithDataprof js parseReport run filename with
      | ok a => simp [hx] at h
      | error e1 =>
        cases hf : analyzeCSVPromise js stream with
        | ok a => simp [hx, hf] at h
        | error e2 => exact ⟨e1, e2, rfl, rfl⟩
    · rintro ⟨e1, e2, h1, h2⟩
      exact ⟨"Failed to analyze CSV file", e2, by simp [handleUpload, respond, h1, h2]⟩
  · intro code out err hrun hbad
    subst hrun
    unfold analyzeWithDataprof
    simp only
    by_cases hg : code = some 0 ∧ out ≠ ""
    · rw [if_pos hg]
      rcases hbad with hb | hb | hb
      · exact absurd hg.1 hb
      · exact absurd hb hg.2
      · rw [hb]
        exact ⟨_, rfl⟩
    · rw [if_neg hg]
      exact ⟨_, rfl⟩
  · intro message hrun
    subst hrun
    rfl

/-- C13: a column's final type is the classification of its first non-blank
value, whatever values follow, and `unknown` when it has observed no
non-blank value; this holds for every sequence of cell texts, and for every
column of the table the accumulator builds from rows with distinct keys. -/
theorem column_type_is_sticky (js : JsBuiltins) (headers : List String) (rows : List Row)
    (hrows : ∀ row ∈ rows, row.keys.Nodup) :
    (∀ (k : String) (vs : List String),
        (vs.foldl (observe js) (freshColumn k)).type = stickyType js vs)
      ∧ (∀ (k : String) (vs later : List String) (v : String), firstNonBlank vs = some v →
          ((vs ++ later).foldl (observe js) (freshColumn k)).type = inferType js v)
      ∧ (∀ (k : String) (vs : List String), (∀ v ∈ vs, isBlank v = true) →
          (vs.foldl (observe js) (freshColumn k)).type = ColType.unknown)
      ∧ (∀ e ∈ accumulate js headers rows, e.2.type = stickyType js (cellValues e.1 rows)) := by
  have hfold : ∀ (k : String) (vs : List String),
      (vs.foldl (observe js) (freshColumn k)).type = stickyType js vs := by
    intro k vs
    rw [foldl_observe_type]
    simp [freshColumn]
  refine ⟨hfold, ?_, ?_, ?_⟩
  · intro k vs later v hv
    rw [hfold, stickyType_append js vs later v hv]
  · intro k vs hall
    rw [hfold]
    have hnone : firstNonBlank vs = none := by
      unfold firstNonBlank
      rw [List.find?_eq_none]
      intro v hv
      simp [hall v hv]
    simp [stickyType, hnone]
  · intro e he
    obtain ⟨header, _, rfl⟩ := mem_accumulate js headers rows hrows e he
    exact hfold header _

/-- Witness of C13: the columns of `romeRows`; `city` is classified by its
first value `Rome`, `zip` has only blank cells and stays `unknown`. -/
theorem column_type_is_sticky_witness :
    (∀ row ∈ romeRows, row.keys.Nodup)
      ∧ (∀ js : JsBuiltins, ∀ e ∈ accumulate js ["city", "zip"] romeRows,
          e.2.type = stickyType js (cellValues e.1 romeRows))
      ∧ (∀ js : JsBuiltins, stickyType js (cellValues "city" romeRows) = inferType js "Rome")
      ∧ (∀ js : JsBuiltins, stickyType js (cellValues "zip" romeRows) = ColType.unknown) :=
  ⟨by decide,
   fun js => (column_type_is_sticky js ["city", "zip"] romeRows (by decide)).2.2.2,
   fun _ => rfl, fun _ => rfl⟩

/-- C15: the issues of the adapter are the first five of the quality findings
whose severity is `critical` or `warning`, in their order, each rendered as
`<description> in column '<column>'`; every issue comes from such a finding,
and a report without quality findings has no issues. -/
theorem adapter_issues_from_findings (js : JsBuiltins) (r : DataprofResult) (filename : String) :
    (convertDataprofToApiResponse js r filename).issues
        = (((qualityFindings r).filter
            (fun f => f.severity = "critical" ∨ f.severity = "warning")).take 5).map renderFinding
      ∧ (∀ s ∈ (convertDataprofToApiResponse js r filename).issues,
          ∃ f ∈ qualityFindings r,
            (f.severity = "critical" ∨ f.severity = "warning") ∧ s = renderFinding f)
      ∧ (qualityFindings r = [] → (convertDataprofToApiResponse js r filename).issues = []) := by
  have h : (convertDataprofToApiResponse js r filename).issues
      = (((qualityFindings r).filter
          (fun f => f.severity = "critical" ∨ f.severity = "warning")).take 5).map
            renderFinding := by
    simp only [convertDataprofToApiResponse, adaptedIssues, qualityFindings]
    cases hq : r.quality with
    | none => simp
    | some q =>
      cases hi : q.issues with
      | none => simp [hi]
      | some l =>
        simp only [Option.bind, hi, Option.getD, List.map_take]
        rfl
  refine ⟨h, ?_, ?_⟩
  · intro s hs
    rw [h, List.mem_map] at hs
    obtain ⟨f, hf, rfl⟩ := hs
    have hf2 := List.mem_of_mem_take hf
    rw [List.mem_filter] at hf2
    exact ⟨f, hf2.1, by simpa using hf2.2, rfl⟩
  · intro hempty
    rw [h, hempty]
    rfl

/-- C16 as stated fails: the column reports of the built-in path have the
five properties `name`, `type`, `nullPercentage`, `uniqueValues`, `samples`
and no property `mlSuitability`, `featureType` or `encodingSuggestions`; so
on `romeRows` no report has `mlSuitability` 0. -/
theorem builtin_report_lacks_ml_fields :
    romeRows ≠ [] ∧ romeColumns ≠ []
      ∧ (∀ js : JsBuiltins, ∃ d, (calculateMLReadiness js romeRows romeColumns).detail = some d
          ∧ d.columns.length = 2
          ∧ ∀ r ∈ d.columns,
              r.toObject.get "mlSuitability" = none
                ∧ r.toObject.get "mlSuitability" ≠ some (JsValue.number 0)
                ∧ r.toObject.get "featureType" ≠ some (JsValue.text "unknown")
                ∧ r.toObject.get "encodingSuggestions" ≠ some (JsValue.texts [])) := by
  refine ⟨by decide, by decide, fun js => ?_⟩
  refine ⟨_, calculateMLReadiness_detail js romeRows romeColumns (by decide) (by decide), rfl, ?_⟩
  intro r _
  refine ⟨?_, ?_, ?_, ?_⟩ <;> simp [ColumnReport.toObject, JsObject.get]

/-- C16 amended: with at least one row and one column, every column report
of the built-in path has exactly the properties `name`, `type`,
`nullPercentage`, `uniqueValues`, `samples`; `mlSuitability`, `featureType`
and `encodingSuggestions` are absent.  A column report of the adapter for a
column without a matching feature-analysis entry has these five properties
and the three others with the values 0, `unknown` and the empty array. -/
theorem column_report_fields (js : JsBuiltins) (rows : List Row) (columns : JsObject ColumnStat)
    (r : DataprofResult) (col : DataprofColumn) (hr : rows ≠ []) (hc : columns ≠ [])
    (hno : (r.mlReadiness.bind (fun m => m.feature_analysis)).bind
      (fun fs => fs.find? (fun f => f.column_name = col.name)) = none) :
    (∃ d, (calculateMLReadiness js rows columns).detail = some d
        ∧ d.columns = columns.values.map (columnReport js rows.length)
        ∧ ∀ rep ∈ d.columns,
            rep.toObject.keys = ["name", "type", "nullPercentage", "uniqueValues", "samples"]
              ∧ rep.toObject.get "mlSuitability" = none
              ∧ rep.toObject.get "featureType" = none
              ∧ rep.toObject.get "encodingSuggestions" = none)
      ∧ (adaptColumn js r col).toObject.keys
          = ["name", "type", "nullPercentage", "uniqueValues", "samples",
             "mlSuitability", "featureType", "encodingSuggestions"]
      ∧ (adaptColumn js r col).toObject.get "mlSuitability" = some (JsValue.number 0)
      ∧ (adaptColumn js r col).toObject.get "featureType" = some (JsValue.text "unknown")
      ∧ (adaptColumn js r col).toObject.get "encodingSuggestions" = some (JsValue.texts []) := by
  refine ⟨⟨_, calculateMLReadiness_detail js rows columns hr hc, rfl, ?_⟩, rfl, ?_, ?_, ?_⟩
  · intro rep _
    refine ⟨rfl, ?_, ?_, ?_⟩ <;> simp [ColumnReport.toObject, JsObject.get]
  · simp [AdaptedColumn.toObject, JsObject.get, adaptColumn, hno, numberOr]
  · simp [AdaptedColumn.toObject, JsObject.get, adaptColumn, hno, stringOr]
  · simp [AdaptedColumn.toObject, JsObject.get, adaptColumn, hno]

/-- Witness of C16 amended: the reports of `romeRows`, and the adapter's
report for a column of a report without feature analysis. -/
theorem column_report_fields_witness :
    romeRows ≠ [] ∧ romeColumns ≠ []
      ∧ (∀ js : JsBuiltins,
          (adaptColumn js (scoreOnlyReport 80)
              { name := "city", data_type := none, null_percentage := none,
                total_count := 2, null_count := 0 }).toObject.get "mlSuitability"
            = some (JsValue.number 0)) :=
  ⟨by decide, by decide, fun js =>
    (column_report_fields js romeRows romeColumns (scoreOnlyReport 80)
      { name := "city", data_type := none, null_percentage := none,
        total_count := 2, null_count := 0 } (by decide) (by decide) rfl).2.2.1⟩

/-! ## Lemmas on the counts per type -/

theorem keys_map_replace {α : Type} (o : JsObject α) (k : String) (v : α) :
    JsObject.keys (o.map (fun e => if e.1 = k then (k, v) else e)) = o.keys := by
  induction o with
  | nil => rfl
  | cons e rest ih =>
    simp only [JsObject.keys, List.map_cons] at ih ⊢
    rw [ih]
    by_cases h : e.1 = k
    · simp [h]
    · simp [h]

theorem map_replace_of_not_mem {α : Type} (o : JsObject α) (k : String) (v : α)
    (h : k ∉ o.keys) : o.map (fun e => if e.1 = k then (k, v) else e) = o := by
  induction o with
  | nil => rfl
  | cons e rest ih =>
    simp only [JsObject.keys, List.map_cons, List.mem_cons, not_or] at h
    have h1 : ¬ e.1 = k := fun hh => h.1 hh.symm
    rw [List.map_cons, if_neg h1, ih h.2]

theorem countSum_map_replace (o : JsObject Nat) (k : String) (v old : Nat)
    (hnd : o.keys.Nodup) (hget : o.get k = some old) :
    countSum (o.map (fun e => if e.1 = k then (k, v) else e)) + old = countSum o + v := by
  induction o with
  | nil => simp [JsObject.get] at hget
  | cons e rest ih =>
    obtain ⟨k1, v1⟩ := e
    simp only [JsObject.keys, List.map_cons, List.nodup_cons] at hnd
    by_cases h : k1 = k
    · subst h
      simp only [JsObject.get, if_true, Option.some.injEq] at hget
      subst hget
      rw [List.map_cons, map_replace_of_not_mem rest k1 v hnd.1]
      simp only [countSum, JsObject.values, List.map_cons, List.sum_cons, if_true]
      omega
    · simp only [JsObject.get, h, if_false] at hget
      have h2 := ih hnd.2 hget
      simp only [countSum, JsObject.values, List.map_cons, List.sum_cons, h, if_false] at h2 ⊢
      omega

theorem has_eq_false_iff {α : Type} (o : JsObject α) (k : String) :
    o.has k = false ↔ k ∉ o.keys := by
  simp only [JsObject.has, JsObject.keys, List.any_eq_false, List.mem_map, beq_iff_eq]
  constructor
  · rintro h ⟨e, he, rfl⟩
    exact h e he rfl
  · intro h e he hk
    exact h ⟨e, he, hk⟩

theorem get_isSome_of_mem_keys {α : Type} (o : JsObject α) (k : String) (h : k ∈ o.keys) :
    ∃ v, o.get k = some v := by
  induction o with
  | nil => simp [JsObject.keys] at h
  | cons e rest ih =>
    obtain ⟨k1, v1⟩ := e
    by_cases hk : k1 = k
    · exact ⟨v1, by simp [JsObject.get, hk]⟩
    · simp only [JsObject.keys, List.map_cons, List.mem_cons] at h
      rcases h with h | h
      · exact absurd h.symm hk
      · obtain ⟨v, hv⟩ := ih h
        exact ⟨v, by simp [JsObject.get, hk, hv]⟩

theorem insertNew_perm {α : Type} (o : JsObject α) (k : String) (v : α) :
    List.Perm (o.insertNew k v) ((k, v) :: o) := by
  unfold JsObject.insertNew
  split_ifs
  · refine List.perm_middle.trans ?_
    rw [List.takeWhile_append_dropWhile]
  · exact List.perm_append_singleton _ _

/-- Counting one more column of a type whose name is not `__proto__` raises
the sum of the counts by one and keeps the keys distinct. -/
theorem countSum_set_succ (o : JsObject Nat) (k : String) (hk : k ≠ "__proto__")
    (hnd : o.keys.Nodup) :
    countSum (o.set k ((o.get k).getD 0 + 1)) = countSum o + 1
      ∧ (o.set k ((o.get k).getD 0 + 1)).keys.Nodup := by
  unfold JsObject.set
  rw [if_neg hk]
  by_cases hhas : o.has k = true
  · rw [if_pos hhas]
    have hmem : k ∈ o.keys := by
      by_contra hc
      rw [(has_eq_false_iff o k).2 hc] at hhas
      exact Bool.false_ne_true hhas
    obtain ⟨old, hold⟩ := get_isSome_of_mem_keys o k hmem
    constructor
    · have h := countSum_map_replace o k (old + 1) old hnd hold
      rw [hold]
      simp only [Option.getD_some]
      omega
    · rw [keys_map_replace]
      exact hnd
  · rw [if_neg hhas]
    have hnone : k ∉ o.keys := (has_eq_false_iff o k).1 (by simpa using hhas)
    have hp := insertNew_perm o k ((o.get k).getD 0 + 1)
    rw [get_eq_none_of_not_mem_keys o k hnone]
    rw [get_eq_none_of_not_mem_keys o k hnone] at hp
    constructor
    · have h2 := (hp.map Prod.snd).sum_eq
      simp only [countSum, JsObject.values]
      rw [h2]
      simp only [Option.getD_none, List.map_cons, List.sum_cons]
      omega
    · have h3 := (hp.map Prod.fst).nodup_iff
      simp only [JsObject.keys]
      rw [h3, List.map_cons, List.nodup_cons]
      exact ⟨hnone, hnd⟩

theorem countSum_foldl {β : Type} (name : β → String) (l : List β) (acc : JsObject Nat)
    (hname : ∀ b ∈ l, name b ≠ "__proto__") (hnd : acc.keys.Nodup) :
    countSum (l.foldl (fun acc b => acc.set (name b) ((acc.get (name b)).getD 0 + 1)) acc)
        = countSum acc + l.length
      ∧ (l.foldl (fun acc b => acc.set (name b) ((acc.get (name b)).getD 0 + 1)) acc).keys.Nodup := by
  induction l generalizing acc with
  | nil => exact ⟨rfl, hnd⟩
  | cons b rest ih =>
    have hb := countSum_set_succ acc (name b) (hname b (List.mem_cons_self _ _)) hnd
    have hr := ih (acc.set (name b) ((acc.get (name b)).getD 0 + 1))
      (fun c hc => hname c (List.mem_cons_of_mem _ hc)) hb.2
    simp only [List.foldl_cons, List.length_cons]
    rw [hr.1, hb.1]
    exact ⟨by omega, hr.2⟩

theorem colType_name_ne_proto (t : ColType) : t.name ≠ "__proto__" := by
  cases t <;> decide

theorem countSum_countTypes (cols : List ColumnStat) : countSum (countTypes cols) = cols.length := by
  have h := (countSum_foldl (fun col : ColumnStat => col.type.name) cols []
    (fun b _ => colType_name_ne_proto b.type) (by simp [JsObject.keys])).1
  simpa [countTypes, countSum, JsObject.values] using h

theorem countSum_adaptedTypeCounts (js : JsBuiltins) (cols : List DataprofColumn)
    (h : ∀ col ∈ cols, isObjectPrototypeKey (adaptedType js col) = false) :
    countSum (adaptedTypeCounts js cols) = cols.length := by
  have hname : ∀ col ∈ cols, adaptedType js col ≠ "__proto__" := by
    intro col hcol heq
    have := h col hcol
    rw [heq] at this
    exact absurd this (by decide)
  have h2 := (countSum_foldl (adaptedType js) cols [] hname (by simp [JsObject.keys])).1
  simpa [adaptedTypeCounts, countSum, JsObject.values] using h2

/-! ## The claim on the column counts -/

/-- C11 as stated fails twice.  The adapter takes `totalColumns` from the
metadata when it is there: a report that declares 2 columns and describes 1
gives `totalColumns` 2 for one column report and a count sum of 1.  And the
result of the scorer for an input without rows has no `totalColumns`,
`columns` or `columnTypes` at all. -/
theorem total_columns_can_differ :
    (∀ js : JsBuiltins,
        (convertDataprofToApiResponse js (declaredColumnsReport 2) "data.csv").totalColumns = 2
          ∧ (convertDataprofToApiResponse js (declaredColumnsReport 2) "data.csv").columns.length
              = 1
          ∧ countSum
              (convertDataprofToApiResponse js (declaredColumnsReport 2) "data.csv").columnTypes
              = 1)
      ∧ (2 : ℚ) ≠ ((1 : Nat) : ℚ)
      ∧ (∀ js : JsBuiltins, (calculateMLReadiness js [] romeColumns).detail = none) := by
  refine ⟨fun js => ⟨?_, rfl, ?_⟩, by norm_num, fun js => ?_⟩
  · simp [convertDataprofToApiResponse, declaredColumnsReport, numberOr]
  · have h : adaptedTypeCounts js
        [{ name := "city", data_type := none, null_percentage := none,
           total_count := 2, null_count := 0 }] = [("unknown", 1)] := by
      simp only [adaptedTypeCounts, List.foldl_cons, List.foldl_nil, adaptedType, stringOr,
        Option.map_none']
      decide
    simp only [convertDataprofToApiResponse, declaredColumnsReport, Option.getD_some]
    rw [h]
    rfl
  · rw [calculateMLReadiness_empty js [] romeColumns (Or.inl rfl)]

/-- C11 amended: a result of the scorer for at least one row and one column
has `totalColumns` equal to the length of `columns` and to the sum of the
counts in `columnTypes` (the result for no data has none of the three).  A
result of the adapter has as many column reports as the report describes
columns, and that number is the sum of the counts in `columnTypes` when no
type name is a property of `Object.prototype`; its `totalColumns` equals it
when the metadata declares no column count, 0, or that number. -/
theorem total_columns_agree (js : JsBuiltins) (rows : List Row) (columns : JsObject ColumnStat)
    (r : DataprofResult) (filename : String) (hr : rows ≠ []) (hc : columns ≠ [])
    (hmeta : ∀ n, r.metadata.bind (fun m => m.total_columns) = some n →
      n = 0 ∨ n = ((r.columns.getD []).length : ℚ))
    (htypes : ∀ col ∈ r.columns.getD [], isObjectPrototypeKey (adaptedType js col) = false) :
    (∃ d, (calculateMLReadiness js rows columns).detail = some d
        ∧ d.totalColumns = d.columns.length
        ∧ d.totalColumns = countSum d.columnTypes)
      ∧ (convertDataprofToApiResponse js r filename).columns.length = (r.columns.getD []).length
      ∧ countSum (convertDataprofToApiResponse js r filename).columnTypes
          = (convertDataprofToApiResponse js r filename).columns.length
      ∧ (convertDataprofToApiResponse js r filename).totalColumns
          = ((convertDataprofToApiResponse js r filename).columns.length : ℚ) := by
  refine ⟨⟨_, calculateMLReadiness_detail js rows columns hr hc, ?_, ?_⟩, ?_, ?_, ?_⟩
  · simp [JsObject.keys, JsObject.values]
  · rw [countSum_countTypes]
    simp [JsObject.keys, JsObject.values]
  · simp [convertDataprofToApiResponse]
  · simp only [convertDataprofToApiResponse, List.length_map]
    exact countSum_adaptedTypeCounts js _ htypes
  · simp only [convertDataprofToApiResponse, List.length_map]
    cases hm : r.metadata.bind (fun m => m.total_columns) with
    | none => simp [numberOr]
    | some n =>
      simp only [numberOr]
      rcases hmeta n hm with h0 | hn
      · rw [if_pos h0]
      · split_ifs with h0
        · rfl
        · exact hn

/-- Witness of C11 amended: `romeRows`, and a report that declares the one
column it describes. -/
theorem total_columns_agree_witness :
    romeRows ≠ [] ∧ romeColumns ≠ []
      ∧ (∀ n, (declaredColumnsReport 1).metadata.bind (fun m => m.total_columns) = some n →
          n = 0 ∨ n = (((declaredColumnsReport 1).columns.getD []).length : ℚ))
      ∧ (∀ js : JsBuiltins,
          (∃ d, (calculateMLReadiness js romeRows romeColumns).detail = some d
            ∧ d.totalColumns = d.columns.length
            ∧ d.totalColumns = countSum d.columnTypes)
          ∧ (convertDataprofToApiResponse js (declaredColumnsReport 1) "data.csv").totalColumns
              = 1) := by
  have hmeta : ∀ n, (declaredColumnsReport 1).metadata.bind (fun m => m.total_columns) = some n →
      n = 0 ∨ n = (((declaredColumnsReport 1).columns.getD []).length : ℚ) := by
    intro n hn
    simp only [declaredColumnsReport, Option.bind, Option.some.injEq] at hn
    subst hn
    right
    simp [declaredColumnsReport]
  refine ⟨by decide, by decide, hmeta, fun js => ?_⟩
  have htypes : ∀ col ∈ (declaredColumnsReport 1).columns.getD [],
      isObjectPrototypeKey (adaptedType js col) = false := by
    intro col hcol
    simp only [declaredColumnsReport, Option.getD_some, List.mem_singleton] at hcol
    subst hcol
    simp only [adaptedType, stringOr, Option.map_none']
    decide
  have h := total_columns_agree js romeRows romeColumns (declaredColumnsReport 1) "data.csv"
    (by decide) (by decide) hmeta htypes
  refine ⟨h.1, ?_⟩
  rw [h.2.2.2, h.2.1]
  simp [declaredColumnsReport]

/-! ## Lemmas on the numeric test -/

theorem parseFloatIsNumeric_eq (v : String) :
    parseFloatIsNumeric v = startsNumber (signStripped (v.data.dropWhile isJsWhiteSpace)) := rfl

theorem digit_not_special (c : Char) (h : c.isDigit = true) : c ≠ '.' ∧ c ≠ '+' ∧ c ≠ '-' := by
  refine ⟨?_, ?_, ?_⟩ <;> (rintro rfl; revert h; decide)

theorem startsNumber_of_digit (c : Char) (rest : List Char) (h : c.isDigit = true) :
    startsNumber (c :: rest) = true := by
  have hc := (digit_not_special c h).1
  unfold startsNumber
  split
  · rename_i heq
    simp at heq
    exact absurd heq.1 hc
  · rename_i heq
    simp at heq
    rw [← heq.1, h]; simp
  · rename_i heq; simp at heq

theorem isPrefixOf_append_self (p w : List Char) : p.isPrefixOf (p ++ w) = true := by
  induction p with
  | nil => simp
  | cons c rest ih => simp [List.isPrefixOf, ih]

theorem startsNumber_of_unsigned (r w : List Char) (h : isUnsignedDecimal r = true) :
    startsNumber (r ++ w) = true := by
  unfold isUnsignedDecimal at h
  split_ifs at h with hinf
  · rw [hinf]
    unfold startsNumber
    rw [isPrefixOf_append_self]
    rfl
  · cases r with
    | nil => simp at h
    | cons c r' =>
      by_cases hd : c.isDigit = true
      · exact startsNumber_of_digit c _ hd
      · rw [List.takeWhile_cons_of_neg hd, List.dropWhile_cons_of_neg hd] at h
        by_cases hdot : c = '.'
        · subst hdot
          simp only [List.isEmpty_nil, Bool.not_true, Bool.false_or, Bool.and_eq_true] at h
          cases r' with
          | nil => simp at h
          | cons d r'' =>
            by_cases hd2 : d.isDigit = true
            · unfold startsNumber
              simp [hd2]
            · rw [List.takeWhile_cons_of_neg hd2] at h
              simp at h
        · split at h
          · rename_i heq; simp at heq
          · rename_i heq
            simp at heq
            exact absurd heq.1 hdot
          · simp at h

theorem isDecimalLiteral_eq (t : List Char) :
    isDecimalLiteral t = isUnsignedDecimal (signStripped t) := by
  unfold isDecimalLiteral signStripped
  split <;> rfl

theorem signStripped_append (t w : List Char) (ht : t ≠ []) :
    signStripped (t ++ w) = signStripped t ++ w := by
  cases t with
  | nil => exact absurd rfl ht
  | cons c t' =>
    by_cases h1 : c = '+'
    · subst h1; rfl
    · by_cases h2 : c = '-'
      · subst h2; rfl
      · have e1 : signStripped (c :: t') = c :: t' := by
          unfold signStripped
          split
          · rename_i heq; simp at heq; exact absurd heq.1 h1
          · rename_i heq; simp at heq; exact absurd heq.1 h2
          · rfl
        have e2 : signStripped (c :: t' ++ w) = c :: t' ++ w := by
          unfold signStripped
          split
          · rename_i heq; simp at heq; exact absurd heq.1 h1
          · rename_i heq; simp at heq; exact absurd heq.1 h2
          · rfl
        rw [e1, e2]

theorem startsNumber_of_nonDecimal (t w : List Char) (h : isNonDecimalLiteral t = true) :
    startsNumber (signStripped (t ++ w)) = true := by
  unfold isNonDecimalLiteral at h
  split at h
  · rename_i b ds
    have e : signStripped ('0' :: b :: ds ++ w) = '0' :: b :: ds ++ w := rfl
    rw [e]
    exact startsNumber_of_digit '0' _ (by decide)
  · simp at h

theorem trim_split (cs : List Char) (h : cs.all isJsWhiteSpace = false) :
    trimChars cs ≠ [] ∧ ∃ w, cs.dropWhile isJsWhiteSpace = trimChars cs ++ w := by
  have hd : cs.dropWhile isJsWhiteSpace ≠ [] := by
    intro h0
    rw [List.dropWhile_eq_nil_iff] at h0
    have : cs.all isJsWhiteSpace = true := List.all_eq_true.2 h0
    rw [this] at h
    exact Bool.noConfusion h
  have hhead := List.head_dropWhile_not isJsWhiteSpace cs hd
  constructor
  · intro h0
    unfold trimChars at h0
    rw [List.reverse_eq_nil_iff, List.dropWhile_eq_nil_iff] at h0
    have h1 := h0 ((cs.dropWhile isJsWhiteSpace).head hd)
      (List.mem_reverse.2 (List.head_mem hd))
    rw [hhead] at h1
    exact Bool.noConfusion h1
  · refine ⟨((cs.dropWhile isJsWhiteSpace).reverse.takeWhile isJsWhiteSpace).reverse, ?_⟩
    unfold trimChars
    rw [← List.reverse_append, List.takeWhile_append_dropWhile, List.reverse_reverse]

theorem parseFloat_of_number (v : String) (hb : isBlank v = false)
    (hn : numberIsNumeric v = true) : parseFloatIsNumeric v = true := by
  obtain ⟨hne, w, hw⟩ := trim_split v.data hb
  rw [parseFloatIsNumeric_eq, hw]
  unfold numberIsNumeric at hn
  simp only [Bool.or_eq_true] at hn
  rcases hn with (hn | hn) | hn
  · rw [List.isEmpty_iff] at hn
    exact absurd hn hne
  · rw [signStripped_append _ _ hne]
    rw [isDecimalLiteral_eq] at hn
    exact startsNumber_of_unsigned _ _ hn
  · exact startsNumber_of_nonDecimal _ _ hn

/-! ## The claim on the numeric types -/

/-- C14: a non-blank value is classified `integer` or `float` exactly when
the whole string passes the number test of `Number` (so never for `12abc`),
and a value that passes it is `integer` exactly when it has no decimal point
and `float` exactly when it has one. -/
theorem numeric_type_iff_number (js : JsBuiltins) (v : String) (hb : isBlank v = false) :
    ((inferType js v = ColType.integer ∨ inferType js v = ColType.float)
        ↔ numberIsNumeric v = true)
      ∧ (numberIsNumeric v = true →
          (inferType js v = ColType.integer ↔ '.' ∉ v.data)
            ∧ (inferType js v = ColType.float ↔ '.' ∈ v.data)) := by
  have hnum : numberIsNumeric v = true →
      inferType js v = if v.data.contains '.' then ColType.float else ColType.integer := by
    intro hn
    unfold inferType
    rw [if_pos (by rw [hn, parseFloat_of_number v hb hn]; rfl)]
  constructor
  · constructor
    · intro h
      by_contra hn
      have hn2 : numberIsNumeric v = false := by simpa using hn
      unfold inferType at h
      rw [if_neg (by rw [hn2]; simp)] at h
      split_ifs at h <;> simp at h
    · intro hn
      rw [hnum hn]
      split_ifs
      · exact Or.inr rfl
      · exact Or.inl rfl
  · intro hn
    rw [hnum hn]
    by_cases hc : v.data.contains '.' = true
    · have hm : '.' ∈ v.data := by simpa using hc
      simp [hc, hm]
    · have hm : '.' ∉ v.data := by simpa using hc
      simp [hc, hm]

/-- Witness of C14: `3.14` passes the number test and is `float`; `12abc` is
not blank, fails the number test and is neither `integer` nor `float`. -/
theorem numeric_type_iff_number_witness :
    isBlank "3.14" = false ∧ isBlank "12abc" = false
      ∧ numberIsNumeric "3.14" = true ∧ numberIsNumeric "12abc" = false
      ∧ (∀ js : JsBuiltins, inferType js "3.14" = ColType.float)
      ∧ (∀ js : JsBuiltins,
          ¬ (inferType js "12abc" = ColType.integer ∨ inferType js "12abc" = ColType.float)) := by
  refine ⟨by decide, by decide, by decide, by decide, fun js => ?_, fun js => ?_⟩
  · exact ((numeric_type_iff_number js "3.14" (by decide)).2 (by decide)).2.2 (by decide)
  · intro h
    have h2 := (numeric_type_iff_number js "12abc" (by decide)).1.1 h
    exact absurd h2 (by decide)

/-! ## Lemmas on the order of the columns -/

theorem insertNew_keys {α : Type} (o : JsObject α) (k : String) (v : α) :
    (o.insertNew k v).keys = insertKey o.keys k := by
  unfold JsObject.insertNew insertKey JsObject.keys
  split_ifs
  · rw [List.map_append, List.map_cons, List.takeWhile_map, List.dropWhile_map]
    rfl
  · rw [List.map_append]
    rfl

theorem set_keys {α : Type} (o : JsObject α) (k : String) (v : α) :
    (o.set k v).keys = stepKeys o.keys k := by
  unfold JsObject.set stepKeys
  by_cases hp : k = "__proto__"
  · rw [if_pos hp, if_pos hp]
  · rw [if_neg hp, if_neg hp]
    by_cases hm : k ∈ o.keys
    · have hhas : o.has k = true := by
        by_contra hc
        have hf : o.has k = false := by simpa using hc
        exact (has_eq_false_iff o k).1 hf hm
      rw [if_pos hhas, if_pos hm, keys_map_replace]
    · have hhas : ¬ o.has k = true := by
        rw [(has_eq_false_iff o k).2 hm]
        exact Bool.false_ne_true
      rw [if_neg hhas, if_neg hm, insertNew_keys]

theorem onHeaders_keys (headers : List String) (cols : JsObject ColumnStat) :
    (onHeaders headers cols).keys = headers.foldl stepKeys cols.keys := by
  induction headers generalizing cols with
  | nil => rfl
  | cons hd tl ih =>
    have h2 : onHeaders (hd :: tl) cols = onHeaders tl (cols.set hd (freshColumn hd)) := rfl
    rw [h2, ih, set_keys, List.foldl_cons]

theorem accumulate_keys (js : JsBuiltins) (headers : List String) (rows : List Row) :
    (accumulate js headers rows).keys = headers.foldl stepKeys [] := by
  unfold accumulate
  rw [foldl_onData_eq_map]
  have h : JsObject.keys ((onHeaders headers []).map
      (fun e => (e.1, rows.foldl (columnAfterRow js e.1) e.2))) = (onHeaders headers []).keys := by
    simp [JsObject.keys, List.map_map, Function.comp_def]
  rw [h, onHeaders_keys]
  rfl

theorem takeWhile_append_of_all_false {α : Type} (q : α → Bool) (l r : List α)
    (h : ∀ x ∈ r, q x = false) :
    (l ++ r).takeWhile q = l.takeWhile q ∧ (l ++ r).dropWhile q = l.dropWhile q ++ r := by
  induction l with
  | nil =>
    cases r with
    | nil => exact ⟨rfl, rfl⟩
    | cons a rest =>
      have ha : ¬ q a = true := by
        rw [h a (List.mem_cons_self _ _)]
        exact Bool.false_ne_true
      constructor
      · rw [List.nil_append, List.takeWhile_cons_of_neg ha, List.takeWhile_nil]
      · rw [List.nil_append, List.dropWhile_cons_of_neg ha, List.dropWhile_nil, List.nil_append]
  | cons a rest ih =>
    by_cases ha : q a = true
    · constructor
      · rw [List.cons_append, List.takeWhile_cons_of_pos ha, List.takeWhile_cons_of_pos ha, ih.1]
      · rw [List.cons_append, List.dropWhile_cons_of_pos ha, List.dropWhile_cons_of_pos ha, ih.2]
    · constructor
      · rw [List.cons_append, List.takeWhile_cons_of_neg ha, List.takeWhile_cons_of_neg ha]
      · rw [List.cons_append, List.dropWhile_cons_of_neg ha, List.dropWhile_cons_of_neg ha,
          List.cons_append]

theorem pairwise_insert_by (q : String → Bool) (l : List String) (k : String)
    (hq : ∀ x ∈ l, (q x = true ↔ indexValue x < indexValue k))
    (hs : l.Pairwise (fun a b => indexValue a ≤ indexValue b)) :
    (l.takeWhile q ++ k :: l.dropWhile q).Pairwise (fun a b => indexValue a ≤ indexValue b) := by
  induction l with
  | nil => simp
  | cons a rest ih =>
    have hrest := ih (fun x hx => hq x (List.mem_cons_of_mem _ hx)) (List.pairwise_cons.1 hs).2
    have hle := (List.pairwise_cons.1 hs).1
    by_cases ha : q a = true
    · rw [List.takeWhile_cons_of_pos ha, List.dropWhile_cons_of_pos ha, List.cons_append,
        List.pairwise_cons]
      refine ⟨?_, hrest⟩
      intro x hx
      rw [List.mem_append, List.mem_cons] at hx
      have hlt : indexValue a < indexValue k := (hq a (List.mem_cons_self _ _)).1 ha
      rcases hx with hx | hx | hx
      · exact hle x (List.takeWhile_subset _ hx)
      · rw [hx]
        exact Nat.le_of_lt hlt
      · exact hle x (List.dropWhile_subset _ hx)
    · rw [List.takeWhile_cons_of_neg ha, List.dropWhile_cons_of_neg ha, List.nil_append,
        List.pairwise_cons]
      refine ⟨?_, hs⟩
      have hge : indexValue k ≤ indexValue a := by
        have h1 : ¬ indexValue a < indexValue k := fun hlt =>
          ha ((hq a (List.mem_cons_self _ _)).2 hlt)
        exact Nat.le_of_not_lt h1
      intro x hx
      rcases List.mem_cons.1 hx with hx | hx
      · rw [hx]
        exact hge
      · exact Nat.le_trans hge (hle x hx)

theorem pairwise_insert_index (l : List String) (k : String)
    (hidx : ∀ x ∈ l, isArrayIndex x = true)
    (hs : l.Pairwise (fun a b => indexValue a ≤ indexValue b)) :
    (l.takeWhile (fun x => isArrayIndex x && decide (indexValue x < indexValue k))
        ++ k :: l.dropWhile (fun x => isArrayIndex x && decide (indexValue x < indexValue k))).Pairwise
      (fun a b => indexValue a ≤ indexValue b) := by
  apply pairwise_insert_by _ l k _ hs
  intro x hx
  simp [hidx x hx]

theorem enumerationOrder_mem (ks names : List String) (h : EnumerationOrder ks names)
    (k : String) : k ∈ ks ↔ k ∈ names := by
  obtain ⟨indices, hks, hperm, _⟩ := h
  rw [hks, List.mem_append, hperm.mem_iff, List.mem_filter, List.mem_filter]
  constructor
  · rintro (h1 | h1)
    · exact h1.1
    · exact h1.1
  · intro hk
    by_cases hi : isArrayIndex k = true
    · exact Or.inl ⟨hk, hi⟩
    · exact Or.inr ⟨hk, by simpa using hi⟩

/-- Creating the column of one more header keeps the enumeration order. -/
theorem enumerationOrder_step (ks names : List String) (header : String)
    (h : EnumerationOrder ks names) (hp : header ≠ "__proto__") :
    EnumerationOrder (stepKeys ks header) (setAdd names header) := by
  have hmem := enumerationOrder_mem ks names h header
  unfold stepKeys setAdd
  rw [if_neg hp]
  by_cases hin : header ∈ names
  · rw [if_pos (hmem.2 hin), if_pos hin]
    exact h
  · rw [if_neg (fun hk => hin (hmem.1 hk)), if_neg hin]
    obtain ⟨indices, hks, hperm, hsorted⟩ := h
    have hidx : ∀ x ∈ indices, isArrayIndex x = true := by
      intro x hx
      exact (List.mem_filter.1 (hperm.mem_iff.1 hx)).2
    unfold insertKey
    by_cases hi : isArrayIndex header = true
    · rw [if_pos hi]
      have hfalse : ∀ x ∈ names.filter (fun h => !isArrayIndex h),
          (isArrayIndex x && decide (indexValue x < indexValue header)) = false := by
        intro x hx
        have hx2 := (List.mem_filter.1 hx).2
        have hx3 : isArrayIndex x = false := by simpa using hx2
        simp [hx3]
      have hsplit := takeWhile_append_of_all_false
        (fun x => isArrayIndex x && decide (indexValue x < indexValue header)) indices
        (names.filter (fun h => !isArrayIndex h)) hfalse
      refine ⟨indices.takeWhile
          (fun x => isArrayIndex x && decide (indexValue x < indexValue header))
        ++ header :: indices.dropWhile
          (fun x => isArrayIndex x && decide (indexValue x < indexValue header)), ?_, ?_, ?_⟩
      · rw [hks, hsplit.1, hsplit.2, List.filter_append]
        simp [hi]
      · rw [List.filter_append]
        have h1 : List.filter isArrayIndex [header] = [header] := by simp [hi]
        rw [h1]
        refine List.perm_middle.trans ?_
        rw [List.takeWhile_append_dropWhile]
        exact (List.Perm.cons header hperm).trans (List.perm_append_singleton header _).symm
      · exact pairwise_insert_index indices header hidx hsorted
    · rw [if_neg hi]
      have hi2 : isArrayIndex header = false := by simpa using hi
      refine ⟨indices, ?_, ?_, hsorted⟩
      · rw [hks, List.filter_append]
        simp [hi2]
      · rw [List.filter_append]
        simpa [hi2] using hperm

theorem enumerationOrder_foldl (headers ks names : List String)
    (h : EnumerationOrder ks names) :
    EnumerationOrder (headers.foldl stepKeys ks)
      ((headers.filter (fun h => decide (h ≠ "__proto__"))).foldl setAdd names) := by
  induction headers generalizing ks names with
  | nil => exact h
  | cons hd tl ih =>
    by_cases hp : hd = "__proto__"
    · have h1 : stepKeys ks hd = ks := by simp [stepKeys, hp]
      have h2 : (hd :: tl).filter (fun h => decide (h ≠ "__proto__"))
          = tl.filter (fun h => decide (h ≠ "__proto__")) := by simp [hp]
      rw [List.foldl_cons, h1, h2]
      exact ih ks names h
    · have h2 : (hd :: tl).filter (fun h => decide (h ≠ "__proto__"))
          = hd :: tl.filter (fun h => decide (h ≠ "__proto__")) := by simp [hp]
      rw [List.foldl_cons, h2, List.foldl_cons]
      exact ih _ _ (enumerationOrder_step ks names hd h hp)

/-- The keys of the column table are in enumeration order. -/
theorem accumulate_enumerationOrder (js : JsBuiltins) (headers : List String)
    (rows : List Row) :
    EnumerationOrder (accumulate js headers rows).keys (columnNames headers) := by
  rw [accumulate_keys]
  exact enumerationOrder_foldl headers [] [] ⟨[], rfl, List.Perm.nil, List.Pairwise.nil⟩

theorem mem_foldl_setAdd (l s : List String) (x : String) (h : x ∈ l.foldl setAdd s) :
    x ∈ s ∨ x ∈ l := by
  induction l generalizing s with
  | nil => exact Or.inl h
  | cons a rest ih =>
    rcases ih (setAdd s a) h with h1 | h1
    · unfold setAdd at h1
      split_ifs at h1
      · exact Or.inl h1
      · rcases List.mem_append.1 h1 with h2 | h2
        · exact Or.inl h2
        · exact Or.inr (by rw [List.mem_singleton.1 h2]; exact List.mem_cons_self _ _)
    · exact Or.inr (List.mem_cons_of_mem _ h1)

theorem mem_columnNames (headers : List String) (x : String) (h : x ∈ columnNames headers) :
    x ∈ headers := by
  unfold columnNames at h
  rcases mem_foldl_setAdd _ [] x h with h1 | h1
  · simp at h1
  · exact (List.mem_filter.1 h1).1

theorem observe_name (js : JsBuiltins) (col : ColumnStat) (v : String) :
    (observe js col v).name = col.name := by
  unfold observe
  split_ifs <;> rfl

theorem foldl_columnObserve_name (js : JsBuiltins) (vs : List String) (col : ColumnStat) :
    (vs.foldl (observe js) col).name = col.name := by
  induction vs generalizing col with
  | nil => rfl
  | cons v rest ih => rw [List.foldl_cons, ih, observe_name]

theorem columnAfterRow_name (js : JsBuiltins) (k : String) (row : Row) (col : ColumnStat) :
    (columnAfterRow js k col row).name = col.name := by
  induction row generalizing col with
  | nil => rfl
  | cons cell rest ih =>
    have h2 : columnAfterRow js k col (cell :: rest)
        = columnAfterRow js k (if k = cell.1 then observe js col cell.2 else col) rest := rfl
    rw [h2, ih]
    split_ifs
    · exact observe_name js col cell.2
    · rfl

theorem foldl_columnAfterRow_name (js : JsBuiltins) (k : String) (rows : List Row)
    (col : ColumnStat) : (rows.foldl (columnAfterRow js k) col).name = col.name := by
  induction rows generalizing col with
  | nil => rfl
  | cons row rest ih => rw [List.foldl_cons, ih, columnAfterRow_name]

/-- Every column of the table is stored under its own name. -/
theorem accumulate_names (js : JsBuiltins) (headers : List String) (rows : List Row) :
    (accumulate js headers rows).values.map (fun col => col.name)
      = (accumulate js headers rows).keys := by
  unfold accumulate
  rw [foldl_onData_eq_map]
  simp only [JsObject.values, JsObject.keys, List.map_map]
  apply List.map_congr_left
  intro e he
  simp only [Function.comp_apply]
  rw [foldl_columnAfterRow_name]
  rcases mem_onHeaders headers [] e he with h1 | ⟨header, _, rfl⟩
  · simp at h1
  · rfl

theorem inferType_seven (js : JsBuiltins) : inferType js "7" = ColType.integer := by
  have h : (numberIsNumeric "7" && parseFloatIsNumeric "7") = true := by decide
  have h2 : ("7".data.contains '.') = false := by decide
  simp [inferType, h, h2]

theorem observe_seven (js : JsBuiltins) (k : String) :
    observe js (freshColumn k) "7" = sevenColumn k := by
  have hb : isBlank "7" = false := by decide
  simp [observe, freshColumn, sevenColumn, setAdd, hb, inferType_seven]

theorem accumulate_bZero (js : JsBuiltins) :
    accumulate js bZeroHeaders bZeroRows = [("0", sevenColumn "0"), ("b", sevenColumn "b")] := by
  have h0 : onHeaders bZeroHeaders [] = [("0", freshColumn "0"), ("b", freshColumn "b")] := by
    decide
  have h1 : cellValues "0" bZeroRows = ["7"] := by decide
  have h2 : cellValues "b" bZeroRows = ["7"] := by decide
  rw [accumulate_eq_map js bZeroHeaders bZeroRows (by decide), h0]
  simp only [List.map, h1, h2, List.foldl_cons, List.foldl_nil, observe_seven]

/-! ## The claim on the order of the issues -/

/-- C6 as stated fails: for the header `b,0` the column table enumerates the
column `0` before the column `b`, so the issues of `0` come before those of
`b`, while the sequence built in header order has them the other way. -/
theorem issues_follow_table_order_not_header_order :
    bZeroRows ≠ [] ∧ columnNames bZeroHeaders = ["b", "0"]
      ∧ (∀ js : JsBuiltins,
          (analyzeCSV js bZeroHeaders bZeroRows).issues
              = ["Small dataset: only 1 rows",
                 "Constant column '0' provides no information",
                 "Constant column 'b' provides no information"]
            ∧ (issueSequence js bZeroRows.length
                (columnsInHeaderOrder bZeroHeaders (accumulate js bZeroHeaders bZeroRows))).take 5
              = ["Small dataset: only 1 rows",
                 "Constant column 'b' provides no information",
                 "Constant column '0' provides no information"])
      ∧ ["Small dataset: only 1 rows",
         "Constant column '0' provides no information",
         "Constant column 'b' provides no information"]
        ≠ ["Small dataset: only 1 rows",
           "Constant column 'b' provides no information",
           "Constant column '0' provides no information"] := by
  refine ⟨by decide, by decide, fun js => ⟨?_, ?_⟩, by decide⟩
  · have hdata := calculateMLReadiness_data js bZeroRows (accumulate js bZeroHeaders bZeroRows)
      (by decide) (by rw [accumulate_bZero]; exact List.cons_ne_nil _ _)
    unfold analyzeCSV
    rw [hdata.2.1, accumulate_bZero]
    have hl : bZeroRows.length = 1 := by decide
    rw [hl]
    simp only [issueSequence, volumeIssues, JsObject.values, List.map, columnIssues_sevenColumn]
    decide
  · rw [accumulate_bZero]
    have hcols : columnsInHeaderOrder bZeroHeaders [("0", sevenColumn "0"), ("b", sevenColumn "b")]
        = [sevenColumn "b", sevenColumn "0"] := by decide
    have hl : bZeroRows.length = 1 := by decide
    rw [hcols, hl]
    simp only [issueSequence, volumeIssues, List.map, columnIssues_sevenColumn]
    decide

/-- C6 amended: with at least one row and one column, the issues returned by
the built-in path are the first five of the issues in evaluation order (small
dataset, then per column missing values, cardinality, constant) and the
recommendations returned are the first five of the recommendations collected
in that order followed by the numeric-feature and the date-feature
recommendation, where the columns are taken in the enumeration order of the
column table: the header names that are array indices first, in ascending
numeric order, then the other header names in header order.  It is header
order when no header name is an array index. -/
theorem issues_in_column_table_order (js : JsBuiltins) (headers : List String)
    (rows : List Row) (hr : rows ≠ []) (hc : onHeaders headers [] ≠ []) :
    (analyzeCSV js headers rows).issues
        = (issueSequence js rows.length (accumulate js headers rows).values).take 5
      ∧ (analyzeCSV js headers rows).recommendations
        = (recommendationSequence rows.length (accumulate js headers rows).values).take 5
      ∧ (accumulate js headers rows).values.map (fun col => col.name)
        = (accumulate js headers rows).keys
      ∧ EnumerationOrder (accumulate js headers rows).keys (columnNames headers)
      ∧ ((∀ h ∈ headers, isArrayIndex h = false) →
          (accumulate js headers rows).keys = columnNames headers) := by
  have hne : accumulate js headers rows ≠ [] := by
    intro h
    have h2 := congrArg List.length h
    rw [accumulate_length] at h2
    exact hc (List.length_eq_zero.mp h2)
  have hdata := calculateMLReadiness_data js rows (accumulate js headers rows) hr hne
  have hord := accumulate_enumerationOrder js headers rows
  refine ⟨hdata.2.1, hdata.2.2, accumulate_names js headers rows, hord, ?_⟩
  intro hno
  obtain ⟨indices, hks, hperm, _⟩ := hord
  have hnames : ∀ x ∈ columnNames headers, isArrayIndex x = false :=
    fun x hx => hno x (mem_columnNames headers x hx)
  have h1 : (columnNames headers).filter isArrayIndex = [] := by
    rw [List.filter_eq_nil_iff]
    intro x hx
    rw [hnames x hx]
    exact Bool.false_ne_true
  have h2 : (columnNames headers).filter (fun h => !isArrayIndex h) = columnNames headers := by
    rw [List.filter_eq_self]
    intro x hx
    rw [hnames x hx]
    rfl
  rw [h1] at hperm
  rw [hks, h2, List.Perm.eq_nil hperm]
  rfl

/-- Witness of C6 amended: the two rows of `romeRows` under the header
`city,zip`, whose columns are enumerated in header order. -/
theorem issues_in_column_table_order_witness :
    romeRows ≠ [] ∧ onHeaders ["city", "zip"] [] ≠ []
      ∧ (∀ h ∈ ["city", "zip"], isArrayIndex h = false)
      ∧ (∀ js : JsBuiltins,
          (accumulate js ["city", "zip"] romeRows).keys = ["city", "zip"]
            ∧ (analyzeCSV js ["city", "zip"] romeRows).issues
              = (issueSequence js romeRows.length
                  (accumulate js ["city", "zip"] romeRows).values).take 5) := by
  refine ⟨by decide, by decide, by decide, fun js => ?_⟩
  have h := issues_in_column_table_order js ["city", "zip"] romeRows (by decide) (by decide)
  refine ⟨?_, h.1⟩
  rw [h.2.2.2.2 (by decide)]
  decide

/-! ## Lemmas for a table with blank cells -/

theorem foldl_observe_fields (js : JsBuiltins) (vs : List String) (col : ColumnStat) :
    (vs.foldl (observe js) col).nullCount = col.nullCount + vs.countP isBlank
      ∧ (vs.foldl (observe js) col).uniqueValues
          = (vs.filter (fun v => !isBlank v)).foldl setAdd col.uniqueValues
      ∧ (vs.foldl (observe js) col).samples
          = (vs.filter (fun v => !isBlank v)).foldl pushSample col.samples := by
  induction vs generalizing col with
  | nil => exact ⟨rfl, rfl, rfl⟩
  | cons v rest ih =>
    have hr := ih (observe js col v)
    rw [List.foldl_cons, hr.1, hr.2.1, hr.2.2]
    by_cases hb : isBlank v = true
    · have h1 : observe js col v = { col with nullCount := col.nullCount + 1 } := by
        simp [observe, hb]
      rw [h1]
      simp only [List.countP_cons_of_pos _ _ hb, List.filter_cons, hb, Bool.not_true]
      refine ⟨by omega, rfl, rfl⟩
    · have hb2 : isBlank v = false := by simpa using hb
      have h1 : (observe js col v).nullCount = col.nullCount
          ∧ (observe js col v).uniqueValues = setAdd col.uniqueValues v
          ∧ (observe js col v).samples = pushSample col.samples v := by
        simp [observe, hb2, pushSample]
      rw [h1.1, h1.2.1, h1.2.2]
      simp [List.countP_cons_of_neg _ _ hb, List.filter_cons, hb2]

/-- The column a header ends with, from the end values of its five fields. -/
theorem foldl_observe_eq_of_fields (js : JsBuiltins) (k : String) (vs : List String)
    (target : ColumnStat) (hname : target.name = k) (htype : stickyType js vs = target.type)
    (hnull : vs.countP isBlank = target.nullCount)
    (huniq : (vs.filter (fun v => !isBlank v)).foldl setAdd [] = target.uniqueValues)
    (hsamp : (vs.filter (fun v => !isBlank v)).foldl pushSample [] = target.samples) :
    vs.foldl (observe js) (freshColumn k) = target := by
  have hf := foldl_observe_fields js vs (freshColumn k)
  have ht := foldl_observe_type js vs (freshColumn k)
  have hn := foldl_columnObserve_name js vs (freshColumn k)
  cases hres : vs.foldl (observe js) (freshColumn k) with
  | mk name type nullCount uniqueValues samples =>
    rw [hres] at hf ht hn
    cases target with
    | mk tname ttype tnull tuniq tsamp =>
      simp only [freshColumn, Nat.zero_add, if_true] at hf ht hn hname htype hnull huniq hsamp
      simp only [ColumnStat.mk.injEq]
      refine ⟨?_, ?_, ?_, ?_, ?_⟩
      · rw [hn, hname]
      · rw [ht, htype]
      · rw [hf.1, hnull]
      · rw [hf.2.1, huniq]
      · rw [hf.2.2, hsamp]

theorem inferType_zero (js : JsBuiltins) : inferType js "0" = ColType.integer := by
  have h : (numberIsNumeric "0" && parseFloatIsNumeric "0") = true := by decide
  have h2 : ("0".data.contains '.') = false := by decide
  simp [inferType, h, h2]

theorem partial_column_of_mixedRows (js : JsBuiltins) (k : String)
    (hk : cellValues k mixedRows = cellValues "c1" mixedRows) :
    (cellValues k mixedRows).foldl (observe js) (freshColumn k) = moderateColumn k := by
  rw [hk]
  apply foldl_observe_eq_of_fields js k _ (moderateColumn k) rfl
  · have h : firstNonBlank (cellValues "c1" mixedRows) = some "0" := by
      set_option maxRecDepth 1000000 in decide
    simp only [stickyType, h, inferType_zero]
    rfl
  · show List.countP isBlank (cellValues "c1" mixedRows) = 30
    set_option maxRecDepth 1000000 in decide
  · show List.foldl setAdd [] (List.filter (fun v => !isBlank v) (cellValues "c1" mixedRows))
      = (List.range 70).map toString
    set_option maxRecDepth 1000000 in decide
  · show List.foldl pushSample [] (List.filter (fun v => !isBlank v) (cellValues "c1" mixedRows))
      = (List.range 10).map toString
    set_option maxRecDepth 1000000 in decide

theorem constant_column_of_mixedRows (js : JsBuiltins) (k : String)
    (hk : cellValues k mixedRows = List.replicate 100 "7") :
    (cellValues k mixedRows).foldl (observe js) (freshColumn k) = constantColumn k := by
  rw [hk]
  apply foldl_observe_eq_of_fields js k _ (constantColumn k) rfl
  · have h : firstNonBlank (List.replicate 100 "7") = some "7" := by decide
    simp only [stickyType, h, inferType_seven]
    rfl
  · show List.countP isBlank (List.replicate 100 "7") = 0
    set_option maxRecDepth 1000000 in decide
  · show List.foldl setAdd [] (List.filter (fun v => !isBlank v) (List.replicate 100 "7")) = ["7"]
    set_option maxRecDepth 1000000 in decide
  · show List.foldl pushSample [] (List.filter (fun v => !isBlank v) (List.replicate 100 "7"))
      = List.replicate 10 "7"
    set_option maxRecDepth 1000000 in decide

/-- The column table the accumulator builds from `mixedRows`. -/
theorem accumulate_mixedRows (js : JsBuiltins) :
    accumulate js mixedHeaders mixedRows = mixedColumns := by
  have hnd : ∀ row ∈ mixedRows, row.keys.Nodup := by
    set_option maxRecDepth 1000000 in decide
  have h0 : onHeaders mixedHeaders []
      = [("c1", freshColumn "c1"), ("c2", freshColumn "c2"), ("c3", freshColumn "c3"),
         ("c4", freshColumn "c4"), ("c5", freshColumn "c5"), ("c6", freshColumn "c6")] := by
    decide
  have hp : ∀ k ∈ ["c1", "c3", "c4", "c5"], cellValues k mixedRows = cellValues "c1" mixedRows := by
    set_option maxRecDepth 1000000 in decide
  have hc : ∀ k ∈ ["c2", "c6"], cellValues k mixedRows = List.replicate 100 "7" := by
    set_option maxRecDepth 1000000 in decide
  rw [accumulate_eq_map js mixedHeaders mixedRows hnd, h0]
  simp only [List.map]
  rw [partial_column_of_mixedRows js "c1" (hp "c1" (by decide)),
    constant_column_of_mixedRows js "c2" (hc "c2" (by decide)),
    partial_column_of_mixedRows js "c3" (hp "c3" (by decide)),
    partial_column_of_mixedRows js "c4" (hp "c4" (by decide)),
    partial_column_of_mixedRows js "c5" (hp "c5" (by decide)),
    constant_column_of_mixedRows js "c6" (hc "c6" (by decide))]
  rfl

theorem nullPercentage_moderateColumn (k : String) : nullPercentage (moderateColumn k) 100 = 30 := by
  unfold nullPercentage moderateColumn
  norm_num

theorem missingRule_moderateColumn (js : JsBuiltins) (k : String) (t : Tally) :
    missingRule js 100 (moderateColumn k) t
      = { score := t.score - 5
          issues := t.issues ++
            ["Moderate missing values in '" ++ k ++ "': " ++ js.percentText 30 ++ "%"]
          recommendations := t.recommendations } := by
  unfold missingRule
  rw [nullPercentage_moderateColumn]
  norm_num [moderateColumn]

theorem constantRule_constantColumn (k : String) (t : Tally) :
    constantRule (constantColumn k) t
      = { score := t.score - 20
          issues := t.issues ++ ["Constant column '" ++ k ++ "' provides no information"]
          recommendations := t.recommendations ++ ["Remove constant column '" ++ k ++ "'"] } := by
  simp [constantRule, constantColumn]

theorem columnIssues_moderateColumn (js : JsBuiltins) (k : String) :
    columnIssues js 100 (moderateColumn k)
      = ["Moderate missing values in '" ++ k ++ "': " ++ js.percentText 30 ++ "%"] := by
  have h : ¬ (ColType.integer = ColType.string) := by decide
  unfold columnIssues missingIssues cardinalityIssues constantIssues
  rw [nullPercentage_moderateColumn]
  norm_num [moderateColumn, h]

theorem columnIssues_constantColumn (js : JsBuiltins) (k : String) :
    columnIssues js 100 (constantColumn k)
      = ["Constant column '" ++ k ++ "' provides no information"] := by
  have h : ¬ (ColType.integer = ColType.string) := by decide
  norm_num [columnIssues, missingIssues, cardinalityIssues, constantIssues, constantColumn,
    nullPercentage, h]

theorem issueSequence_mixedColumns (js : JsBuiltins) :
    issueSequence js 100 mixedColumns.values
      = ["Moderate missing values in '" ++ "c1" ++ "': " ++ js.percentText 30 ++ "%",
         "Constant column '" ++ "c2" ++ "' provides no information",
         "Moderate missing values in '" ++ "c3" ++ "': " ++ js.percentText 30 ++ "%",
         "Moderate missing values in '" ++ "c4" ++ "': " ++ js.percentText 30 ++ "%",
         "Moderate missing values in '" ++ "c5" ++ "': " ++ js.percentText 30 ++ "%",
         "Constant column '" ++ "c6" ++ "' provides no information"] := by
  have hv : mixedColumns.values
      = [moderateColumn "c1", constantColumn "c2", moderateColumn "c3", moderateColumn "c4",
         moderateColumn "c5", constantColumn "c6"] := rfl
  have h100 : ¬ (100 < 100) := by decide
  rw [hv]
  simp only [issueSequence, volumeIssues, if_neg h100, List.map, columnIssues_moderateColumn,
    columnIssues_constantColumn]
  rfl

theorem constant_ne_moderate (k1 k2 p : String) :
    "Constant column '" ++ k1 ++ "' provides no information"
      ≠ "Moderate missing values in '" ++ k2 ++ "': " ++ p ++ "%" := by
  intro h
  have h2 := congrArg String.data h
  simp at h2

/-! ## The claim on the significance of the issues -/

/-- C9 fails on the code.  For the hundred rows of `mixedRows` the accumulator
builds `mixedColumns`, and the scorer returns, in evaluation order, the issues
of `c1` (pushed by the rule that subtracts 5), `c2` (pushed by the rule that
subtracts 20), `c3`, `c4`, `c5` (5 each): an issue of penalty 5 is followed by
one of penalty 20, and the cap keeps three issues of penalty 5 while it drops
the collected issue of `c6`, of penalty 20. -/
theorem first_five_are_not_the_top_five :
    mixedRows.length = 100
      ∧ (∀ js : JsBuiltins, accumulate js mixedHeaders mixedRows = mixedColumns)
      ∧ (∀ js : JsBuiltins,
          (calculateMLReadiness js mixedRows mixedColumns).issues
            = ["Moderate missing values in '" ++ "c1" ++ "': " ++ js.percentText 30 ++ "%",
               "Constant column '" ++ "c2" ++ "' provides no information",
               "Moderate missing values in '" ++ "c3" ++ "': " ++ js.percentText 30 ++ "%",
               "Moderate missing values in '" ++ "c4" ++ "': " ++ js.percentText 30 ++ "%",
               "Moderate missing values in '" ++ "c5" ++ "': " ++ js.percentText 30 ++ "%"])
      ∧ (∀ (js : JsBuiltins) (k : String) (t : Tally),
          (missingRule js 100 (moderateColumn k) t).score = t.score - 5
            ∧ (missingRule js 100 (moderateColumn k) t).issues
              = t.issues ++
                ["Moderate missing values in '" ++ k ++ "': " ++ js.percentText 30 ++ "%"])
      ∧ (∀ (k : String) (t : Tally),
          (constantRule (constantColumn k) t).score = t.score - 20
            ∧ (constantRule (constantColumn k) t).issues
              = t.issues ++ ["Constant column '" ++ k ++ "' provides no information"])
      ∧ (∀ js : JsBuiltins,
          ("Constant column '" ++ "c6" ++ "' provides no information")
              ∈ issueSequence js 100 mixedColumns.values
            ∧ ("Constant column '" ++ "c6" ++ "' provides no information")
              ∉ (calculateMLReadiness js mixedRows mixedColumns).issues) := by
  have hl : mixedRows.length = 100 := by decide
  have hret : ∀ js : JsBuiltins,
      (calculateMLReadiness js mixedRows mixedColumns).issues
        = ["Moderate missing values in '" ++ "c1" ++ "': " ++ js.percentText 30 ++ "%",
           "Constant column '" ++ "c2" ++ "' provides no information",
           "Moderate missing values in '" ++ "c3" ++ "': " ++ js.percentText 30 ++ "%",
           "Moderate missing values in '" ++ "c4" ++ "': " ++ js.percentText 30 ++ "%",
           "Moderate missing values in '" ++ "c5" ++ "': " ++ js.percentText 30 ++ "%"] := by
    intro js
    rw [(calculateMLReadiness_data js mixedRows mixedColumns (by decide) (by decide)).2.1, hl,
      issueSequence_mixedColumns]
    rfl
  refine ⟨hl, accumulate_mixedRows, hret, ?_, ?_, ?_⟩
  · intro js k t
    rw [missingRule_moderateColumn]
    exact ⟨rfl, rfl⟩
  · intro k t
    rw [constantRule_constantColumn]
    exact ⟨rfl, rfl⟩
  · intro js
    constructor
    · rw [issueSequence_mixedColumns]
      simp
    · rw [hret js]
      simp only [List.mem_cons, List.mem_singleton, List.not_mem_nil, or_false, not_or]
      refine ⟨constant_ne_moderate _ _ _, by decide, constant_ne_moderate _ _ _,
        constant_ne_moderate _ _ _, constant_ne_moderate _ _ _⟩

end CsvMlReady
